import Mathlib

/-! healthplanet-to-fitbit: the sync loop, the Fitbit client and the credential file.

A shallow embedding of `fitbit.go` (package `htf`) and of
`cmd/healthplanet-to-fitbit/main.go` (package `main`).

* The Fitbit service and the OAuth2 token source are the environment: they are
  explicit state `σ` that the two fields of `FitbitAPI` act on.
* The `.env` file that `fitbit.go` rewrites is state of type `Disk`: the content
  of the file (`none` when it cannot be opened) and how the file system takes
  the rewrites to come. `main.go` reads the file with `bytes.Split`; there the
  state is the list of the pieces between line feeds.
* Every call of the loop is recorded, with the HTTP exchange it made, so that
  statements about which calls a run issues can be read off the result.
-/

namespace htf

/-! ## Standard library: strconv, time, strings, net/url, net/http -/

/-- A float64, by its exact value. Every finite float64 is a finite decimal, so
`finite neg digits scale` stands for `(-1)^neg * digits / 10^scale`. -/
inductive Float64 where
  | finite (neg : Bool) (digits : Nat) (scale : Nat)
  | inf (neg : Bool)
  | nan
deriving DecidableEq, Repr

/-- Quotient `n / d` rounded to the nearest integer, a tie going to the even
neighbour: the rounding of `strconv` on the exact decimal expansion. -/
def roundHalfEven (n d : Nat) : Nat :=
  let q := n / d
  let r := n % d
  if 2 * r < d then q
  else if d < 2 * r then q + 1
  else if q % 2 = 0 then q
  else q + 1

/-- Decimal digits of `n`, padded with zeros on the left to `width` digits. -/
def zeroPad (width n : Nat) : String :=
  String.mk (List.replicate (width - (toString n).length) '0') ++ toString n

/-- The call `strconv.FormatFloat(f, 'f', 2, 64)`: two digits after the point. -/
def FormatFloat : Float64 → String
  | .finite neg digits scale =>
    let n := roundHalfEven (digits * 100) (10 ^ scale)
    (if neg then "-" else "") ++ toString (n / 100) ++ "." ++ zeroPad 2 (n % 100)
  | .inf neg => if neg then "-Inf" else "+Inf"
  | .nan => "NaN"

/-- A `time.Time`, by the calendar fields that `Format` prints. -/
structure Time where
  Year : Nat
  Month : Nat
  Day : Nat
  Hour : Nat
  Minute : Nat
  Second : Nat
deriving DecidableEq, Repr

/-- The call `t.Format("2006-01-02")`. -/
def Time.FormatDate (t : Time) : String :=
  zeroPad 4 t.Year ++ "-" ++ zeroPad 2 t.Month ++ "-" ++ zeroPad 2 t.Day

/-- The call `t.Format("15:04:05")`. -/
def Time.FormatClock (t : Time) : String :=
  zeroPad 2 t.Hour ++ ":" ++ zeroPad 2 t.Minute ++ ":" ++ zeroPad 2 t.Second

/-- The decimal digit of `n` at the place of `10 ^ place`, as a character. -/
def digitAt (n place : Nat) : Char :=
  Nat.digitChar (n / 10 ^ place % 10)

/-- The layout `YYYY-MM-DD` of the spec, written out digit by digit. -/
def YYYYMMDD (t : Time) : String :=
  String.mk [digitAt t.Year 3, digitAt t.Year 2, digitAt t.Year 1, digitAt t.Year 0, '-',
    digitAt t.Month 1, digitAt t.Month 0, '-', digitAt t.Day 1, digitAt t.Day 0]

/-- The layout `HH:MM:SS` of the spec, written out digit by digit. -/
def HHMMSS (t : Time) : String :=
  String.mk [digitAt t.Hour 1, digitAt t.Hour 0, ':', digitAt t.Minute 1, digitAt t.Minute 0,
    ':', digitAt t.Second 1, digitAt t.Second 0]

/-- The 2-decimal numeral of the spec for `h` hundredths: the sign, the whole
part in decimal, the point, and the two digits of the hundredths. -/
def twoDecimals (neg : Bool) (h : Nat) : String :=
  String.mk ((if neg then ['-'] else []) ++ Nat.toDigits 10 (h / 100) ++
    ['.', digitAt h 1, digitAt h 0])

/-- The number `h` of hundredths is the nearest one to `digits / 10 ^ scale`,
and the even one when two are equally near. -/
def NearestHundredths (digits scale h : Nat) : Prop :=
  2 * (h * 10 ^ scale) ≤ 2 * (digits * 100) + 10 ^ scale ∧
    2 * (digits * 100) ≤ 2 * (h * 10 ^ scale) + 10 ^ scale ∧
    ((2 * (h * 10 ^ scale) = 2 * (digits * 100) + 10 ^ scale ∨
      2 * (digits * 100) = 2 * (h * 10 ^ scale) + 10 ^ scale) → h % 2 = 0)

/-- The call `strings.HasPrefix(s, p)`, also `bytes.HasPrefix`. -/
def HasPrefix (s p : String) : Bool :=
  p.data.isPrefixOf s.data

/-- A `url.Values` built by `Add`: the pairs in the order they were added. -/
abbrev Values := List (String × String)

/-- An HTTP request: method, URL before the query, and the query values as
they are handed to `Encode`, which sorts them by key and escapes them. -/
structure Request where
  Method : String
  URL : String
  Query : Values
deriving DecidableEq, Repr

/-! ## Standard library: bufio and os, as `updateEnvFile` of fitbit.go uses them -/

/-- The pieces of a text between its line feeds; a text that ends in a line
feed has an empty last piece. -/
def splitLF : List Char → List (List Char)
  | [] => [[]]
  | c :: cs =>
    if c = '\n' then [] :: splitLF cs
    else
      match splitLF cs with
      | [] => [[c]]
      | l :: ls => (c :: l) :: ls

/-- The lines `bufio.ScanLines` finds, before it drops a carriage return: the
pieces between line feeds, an empty last piece being no line. -/
def rawLines (content : String) : List (List Char) :=
  if (splitLF content.data).getLast? = some [] then (splitLF content.data).dropLast
  else splitLF content.data

/-- The function `dropCR` of bufio: one carriage return at the end is dropped. -/
def dropCR (data : List Char) : List Char :=
  if data.getLast? = some '\r' then data.dropLast else data

/-- The constant `bufio.MaxScanTokenSize`, the size of the buffer of a Scanner. -/
def MaxScanTokenSize : Nat := 64 * 1024

/-- The loop `for scanner.Scan()` with `scanner.Text()` over a file, followed by
`scanner.Err()`: the lines, or `none` for `bufio.ErrTooLong`, which is returned
when a line of `MaxScanTokenSize` bytes or more fills the buffer before its line
feed or the end of the file is seen. -/
def scanLines (content : String) : Option (List String) :=
  if (rawLines content).any
      fun l => decide (MaxScanTokenSize ≤ (String.mk l).utf8ByteSize) then none
  else some ((rawLines content).map fun l => String.mk (dropCR l))

/-- What `fmt.Fprintln(writer, line)` over `lines` sends to the file: each line
followed by a line feed. -/
def printLines (lines : List String) : String :=
  String.mk (lines.flatMap fun line => line.data ++ ['\n'])

/-- How the file system takes one rewrite of `.env`: it goes through; or
`os.Create` fails and the file stays as it is; or the file is truncated and only
the first `written` characters reach it, so that `writer.Flush` returns an
error. -/
inductive Rewrite where
  | ok
  | createFails
  | flushFails (written : Nat)
deriving DecidableEq, Repr

/-- The `.env` file: its content, `none` when `os.Open` fails, and how the file
system takes the rewrites to come, one entry for each, none left meaning that
they go through. -/
structure Disk where
  file : Option String
  rewrites : List Rewrite
deriving DecidableEq, Repr

/-- The lines a Scanner reads from `.env`; `none` when the file cannot be
opened or has a line too long for the Scanner. -/
def Disk.lines (disk : Disk) : Option (List String) :=
  disk.file.bind scanLines

/-- A line that a Scanner reads back as `Fprintln` wrote it: no line feed in
it, no carriage return at its end, and shorter than `MaxScanTokenSize` bytes. -/
def Plain (line : String) : Prop :=
  '\n' ∉ line.data ∧ line.data.getLast? ≠ some '\r' ∧ line.utf8ByteSize < MaxScanTokenSize

/-! ## fitbit.go -/

/-- One element of `GetWeightLogResponse.Weight`. -/
structure WeightEntry where
  BMI : Float64
  Date : String
  Fat : Float64
  LogId : Int
  Source : String
  Time : String
  Weight : Float64
deriving DecidableEq, Repr

/-- The struct `GetWeightLogResponse`. -/
structure GetWeightLogResponse where
  Weight : List WeightEntry
deriving DecidableEq, Repr

/-- What `Client.Get` or `Client.Post` hands back: a transport error, or a
response with its status code and its body. The body is given as the result of
decoding it as JSON into a `GetWeightLogResponse` (`none` when that fails). -/
inductive Reply where
  | failed
  | response (StatusCode : Int) (Body : Option GetWeightLogResponse)
deriving DecidableEq, Repr

/-- A request that was sent, with what came back. -/
structure Exchange where
  Request : Request
  Reply : Reply
deriving DecidableEq, Repr

/-- An `oauth2.Token`. -/
structure Token where
  AccessToken : String
  RefreshToken : String
deriving DecidableEq, Repr

/-- The struct `FitbitAPI` over an environment of type `σ`. `Client` sends a
request and `TokenSource` is `TokenSource.Token()` (`none` is its error). -/
structure FitbitAPI (σ : Type) where
  Client : σ → Request → Reply × σ
  TokenSource : σ → Option Token × σ

/-- The errors the package builds: `errors.Wrap(err, msg)` around a failure of
a callee, and `errors.Errorf(msg + ": %d", code)` for a status code. -/
inductive Error where
  | wrap (msg : String)
  | status (msg : String) (code : Int)
deriving DecidableEq, Repr

/-- Everything a run acts on: the environment behind the API and `.env`. -/
structure Sys (σ : Type) where
  remote : σ
  env : Disk

/-- Lines 138 to 147 of `updateEnvFile`: the rewritten slice of lines. -/
def updateLines (key value : String) (lines : List String) : List String :=
  lines.map fun line => if HasPrefix line (key ++ "=") then key ++ "=" ++ value else line

/-- The function `updateEnvFile` of fitbit.go. The first component is true when
an error is returned: `os.Open` fails; the Scanner ends in an error; `os.Create`
fails; `writer.Flush` fails. The second is `.env` and the file system
afterwards. Nothing is written in the first three cases. -/
def updateEnvFile (key value : String) (disk : Disk) : Bool × Disk :=
  match disk.file with
  | none => (true, disk)
  | some content =>
    match scanLines content with
    | none => (true, disk)
    | some lines =>
      match disk.rewrites with
      | [] => (false, { file := some (printLines (updateLines key value lines)), rewrites := [] })
      | .ok :: rest =>
        (false, { file := some (printLines (updateLines key value lines)), rewrites := rest })
      | .createFails :: rest => (true, { file := some content, rewrites := rest })
      | .flushFails written :: rest =>
        (true,
          { file := some (String.mk ((printLines (updateLines key value lines)).data.take written))
            rewrites := rest })

/-- The function `saveToken`: both updates in turn, the second one reading the
file the first one left; their errors are only printed. -/
def saveToken (token : Token) (disk : Disk) : Disk :=
  (updateEnvFile "REFRESH_TOKEN" token.RefreshToken
    (updateEnvFile "ACCESS_TOKEN" token.AccessToken disk).2).2

/-- The status test of lines 76, 95 and 117: true when the call is an error. -/
def invalidStatus (StatusCode : Int) : Bool :=
  decide (StatusCode < 200) || decide (400 ≤ StatusCode)

/-- The request `CreateWeightLog` posts. -/
def weightRequest (weight : Float64) (date : Time) : Request :=
  { Method := "POST"
    URL := "https://api.fitbit.com/1/user/-/body/log/weight.json"
    Query := [("weight", FormatFloat weight), ("date", date.FormatDate),
      ("time", date.FormatClock)] }

/-- The request `CreateBodyFatLog` posts. -/
def fatRequest (fat : Float64) (date : Time) : Request :=
  { Method := "POST"
    URL := "https://api.fitbit.com/1/user/-/body/log/fat.json"
    Query := [("fat", FormatFloat fat), ("date", date.FormatDate),
      ("time", date.FormatClock)] }

/-- The URL of the weight log of a date, line 111. -/
def logURL (formattedDate : String) : String :=
  "https://api.fitbit.com/1/user/-/body/log/weight/date/" ++ formattedDate ++ ".json"

/-- The request `GetBodyWeightLog` sends. -/
def logRequest (date : Time) : Request :=
  { Method := "GET", URL := logURL date.FormatDate, Query := [] }

/-- Result of a write call: the error (`none` is nil), the state afterwards,
and the exchange made. -/
structure WriteResult (σ : Type) where
  err : Option Error
  sys : Sys σ
  http : List Exchange

/-- Result of `GetBodyWeightLog`. -/
structure ReadResult (σ : Type) where
  res : Except Error GetWeightLogResponse
  sys : Sys σ
  http : List Exchange

/-- The method `CreateWeightLog`. -/
def CreateWeightLog {σ : Type} (api : FitbitAPI σ) (sys : Sys σ) (weight : Float64)
    (date : Time) : WriteResult σ :=
  let r := api.Client sys.remote (weightRequest weight date)
  let sys1 : Sys σ := { sys with remote := r.2 }
  match r.1 with
  | .failed =>
    ⟨some (.wrap "failed to create weight log in fitbit"), sys1,
      [⟨weightRequest weight date, r.1⟩]⟩
  | .response StatusCode _ =>
    if invalidStatus StatusCode then
      ⟨some (.status "failed to create weight log in fitbit(invalid status code)" StatusCode),
        sys1, [⟨weightRequest weight date, r.1⟩]⟩
    else ⟨none, sys1, [⟨weightRequest weight date, r.1⟩]⟩

/-- The method `CreateBodyFatLog`. -/
def CreateBodyFatLog {σ : Type} (api : FitbitAPI σ) (sys : Sys σ) (fat : Float64)
    (date : Time) : WriteResult σ :=
  let r := api.Client sys.remote (fatRequest fat date)
  let sys1 : Sys σ := { sys with remote := r.2 }
  match r.1 with
  | .failed =>
    ⟨some (.wrap "failed to create fat log in fitbit"), sys1, [⟨fatRequest fat date, r.1⟩]⟩
  | .response StatusCode _ =>
    if invalidStatus StatusCode then
      ⟨some (.status "failed to create fat log in fitbit(invalid status code)" StatusCode),
        sys1, [⟨fatRequest fat date, r.1⟩]⟩
    else ⟨none, sys1, [⟨fatRequest fat date, r.1⟩]⟩

/-- The method `GetBodyWeightLog`: fetch a token, save it, then read the log. -/
def GetBodyWeightLog {σ : Type} (api : FitbitAPI σ) (sys : Sys σ) (date : Time) :
    ReadResult σ :=
  let tk := api.TokenSource sys.remote
  match tk.1 with
  | none => ⟨.error (.wrap "failed to get token"), { sys with remote := tk.2 }, []⟩
  | some token =>
    let r := api.Client tk.2 (logRequest date)
    let sys1 : Sys σ := { remote := r.2, env := saveToken token sys.env }
    match r.1 with
    | .failed =>
      ⟨.error (.wrap "failed to get weight log in fitbit"), sys1, [⟨logRequest date, r.1⟩]⟩
    | .response StatusCode Body =>
      if invalidStatus StatusCode then
        ⟨.error (.status "failed to get weight log in fitbit(invalid status code)" StatusCode),
          sys1, [⟨logRequest date, r.1⟩]⟩
      else
        match Body with
        | none =>
          ⟨.error (.wrap "failed to parse weight log in fitbit"), sys1,
            [⟨logRequest date, r.1⟩]⟩
        | some resData => ⟨.ok resData, sys1, [⟨logRequest date, r.1⟩]⟩

/-- Modelled from the spec: the struct `InnerScanData` of the package, whose
declaration is not among the sources. It is the Measurement of the spec, with an
optional weight and an optional body fat value; `main` reads its two pointer
fields `Weight` and `Fat`. -/
structure InnerScanData where
  Weight : Option Float64
  Fat : Option Float64
deriving DecidableEq, Repr

end htf

namespace main

open htf

/-! ## main.go: the sync loop, lines 47 to 78 -/

/-- A call the loop made on the API: its arguments, the exchange it made and
what it returned. -/
inductive Call where
  | GetBodyWeightLog (date : Time) (http : List Exchange)
      (res : Except Error GetWeightLogResponse)
  | CreateWeightLog (weight : Float64) (date : Time) (http : List Exchange)
      (err : Option Error)
  | CreateBodyFatLog (fat : Float64) (date : Time) (http : List Exchange)
      (err : Option Error)

/-- True on a `CreateWeightLog` call. -/
def Call.isWeightWrite : Call → Bool
  | .CreateWeightLog _ _ _ _ => true
  | _ => false

/-- True on a `CreateBodyFatLog` call. -/
def Call.isFatWrite : Call → Bool
  | .CreateBodyFatLog _ _ _ _ => true
  | _ => false

/-- True on either write call. -/
def Call.isWrite (c : Call) : Bool :=
  c.isWeightWrite || c.isFatWrite

/-- The error a call returned, `none` for nil. -/
def Call.err : Call → Option Error
  | .GetBodyWeightLog _ _ (.error e) => some e
  | .GetBodyWeightLog _ _ (.ok _) => none
  | .CreateWeightLog _ _ _ err => err
  | .CreateBodyFatLog _ _ _ err => err

/-- The exchanges of a call. -/
def Call.http : Call → List Exchange
  | .GetBodyWeightLog _ http _ => http
  | .CreateWeightLog _ _ http _ => http
  | .CreateBodyFatLog _ _ http _ => http

/-- State after a part of the loop body. `fatal` holds the message and error of
a `log.Fatalf`, which ends the process. -/
structure Step (σ : Type) where
  fatal : Option (String × Error)
  sys : Sys σ
  calls : List Call

/-- Lines 58 to 62: the weight write. -/
def weightStep {σ : Type} (api : FitbitAPI σ) (sys : Sys σ) (t : Time)
    (data : InnerScanData) : Step σ :=
  match data.Weight with
  | none => ⟨none, sys, []⟩
  | some weight =>
    let w := CreateWeightLog api sys weight t
    ⟨w.err.map fun err => ("failed to create weight log", err), w.sys,
      [.CreateWeightLog weight t w.http w.err]⟩

/-- Lines 64 to 68: the body fat write. -/
def fatStep {σ : Type} (api : FitbitAPI σ) (sys : Sys σ) (t : Time)
    (data : InnerScanData) : Step σ :=
  match data.Fat with
  | none => ⟨none, sys, []⟩
  | some fat =>
    let f := CreateBodyFatLog api sys fat t
    ⟨f.err.map fun err => ("failed to create fat log", err), f.sys,
      [.CreateBodyFatLog fat t f.http f.err]⟩

/-- Lines 48 to 77: the body of the loop for one key `t` and its value `data`.
The lines written with `log.Printf` are left out. -/
def loopBody {σ : Type} (api : FitbitAPI σ) (sys : Sys σ) (t : Time)
    (data : InnerScanData) : Step σ :=
  let g := GetBodyWeightLog api sys t
  match g.res with
  | .error err =>
    ⟨some ("failed to get weight log from fitbit", err), g.sys,
      [.GetBodyWeightLog t g.http g.res]⟩
  | .ok weightLog =>
    if weightLog.Weight.length > 0 then
      ⟨none, g.sys, [.GetBodyWeightLog t g.http g.res]⟩
    else
      let w := weightStep api g.sys t data
      match w.fatal with
      | some e => ⟨some e, w.sys, .GetBodyWeightLog t g.http g.res :: w.calls⟩
      | none =>
        let f := fatStep api w.sys t data
        ⟨f.fatal, f.sys, .GetBodyWeightLog t g.http g.res :: (w.calls ++ f.calls)⟩

/-- What a run of the loop leaves: for each key visited, in order, the calls
made for it; the `log.Fatalf` that ended the run, if any; the state. -/
structure Run (σ : Type) where
  log : List (Time × List Call)
  fatal : Option (String × Error)
  sys : Sys σ

/-- Lines 47 to 78: the loop over `scanData`, given in the order in which the
`range` over the map visits its keys. -/
def syncLoop {σ : Type} (api : FitbitAPI σ) : List (Time × InnerScanData) → Sys σ → Run σ
  | [], sys => ⟨[], none, sys⟩
  | (t, data) :: rest, sys =>
    let b := loopBody api sys t data
    match b.fatal with
    | some e => ⟨[(t, b.calls)], some e, b.sys⟩
    | none =>
      let r := syncLoop api rest b.sys
      ⟨(t, b.calls) :: r.log, r.fatal, r.sys⟩

/-- All calls of a run, in order. -/
def Run.calls {σ : Type} (r : Run σ) : List Call :=
  r.log.flatMap fun p => p.2

/-- Number of `CreateWeightLog` and `CreateBodyFatLog` calls of a run. -/
def Run.writes {σ : Type} (r : Run σ) : Nat :=
  r.calls.countP Call.isWrite

/-! ## main.go: the token refresh, lines 83 to 161 -/

/-- A value of type `interface{}` as `encoding/json` decodes it. The elements of
arrays and the members of nested objects are not kept. -/
inductive JSON where
  | null
  | bool (b : Bool)
  | number (f : Float64)
  | string (s : String)
  | array
  | object
deriving DecidableEq, Repr

/-- What `client.Do` and the decoder give for the refresh request: a transport
error, or the body decoded into the map `resData` (`none` when decoding fails). -/
inductive TokenReply where
  | failed
  | body (resData : Option (List (String × JSON)))
deriving DecidableEq, Repr

/-- How a call of `refreshAccessToken` ends: it returns the access token, it
returns an error, or it panics. -/
inductive Outcome where
  | returned (accessToken : String)
  | error (msg : String)
  | panic
deriving DecidableEq, Repr

/-- The type assertion `resData[key].(string)`, `none` when it panics. -/
def assertString (resData : List (String × JSON)) (key : String) : Option String :=
  match resData.lookup key with
  | some (.string s) => some s
  | _ => none

/-- Lines 145 to 152 of `updateEnvFile` of main.go, for one line. -/
def updateLine (accessToken refreshToken line : String) : String :=
  let line1 :=
    if HasPrefix line "FITBIT_ACCESS_TOKEN=" then "FITBIT_ACCESS_TOKEN=" ++ accessToken
    else line
  if HasPrefix line "FITBIT_REFRESH_TOKEN=" then "FITBIT_REFRESH_TOKEN=" ++ refreshToken
  else line1

/-- The function `updateEnvFile` of main.go. Here `some lines` is the result of
`bytes.Split` on the content of `.env`, and what is returned is the slice that
is joined and written back. When `.env` cannot be opened nothing is written. -/
def updateEnvFile (accessToken refreshToken : String) (env : Option (List String)) :
    Option (List String) :=
  match env with
  | none => none
  | some lines => some (lines.map (updateLine accessToken refreshToken))

/-- The form of the refresh request, lines 86 to 89. -/
def refreshForm (clientID currentRefreshToken : String) : Values :=
  [("grant_type", "refresh_token"), ("client_id", clientID),
    ("refresh_token", currentRefreshToken)]

/-- The function `refreshAccessToken`, with the token endpoint `post` as a
function of the form sent to it. Returns the outcome and `.env` afterwards. -/
def refreshAccessToken (post : Values → TokenReply) (clientID currentRefreshToken : String)
    (env : Option (List String)) : Outcome × Option (List String) :=
  match post (refreshForm clientID currentRefreshToken) with
  | .failed => (.error "error in response", env)
  | .body none => (.error "error decoding response", env)
  | .body (some resData) =>
    match assertString resData "access_token" with
    | none => (.panic, env)
    | some accessToken =>
      match assertString resData "refresh_token" with
      | none => (.panic, env)
      | some newRefreshToken =>
        (.returned accessToken, updateEnvFile accessToken newRefreshToken env)

end main

/-! ## A Fitbit service, to run the loop against

The service keeps a weight log and a body fat log, each written by its own
endpoint, and serves the weight log of a date on the read endpoint. It answers
429 once its request quota is used up. -/

namespace service

open htf

/-- An entry of the body fat log. -/
structure FatEntry where
  Date : String
  Fat : Float64
  LogId : Int
  Source : String
  Time : String
deriving DecidableEq, Repr

/-- State of the service. -/
structure State where
  weight : List WeightEntry
  fat : List FatEntry
  quota : Nat
deriving DecidableEq, Repr

/-- The number a string of decimal digits stands for. -/
def digitsValue (cs : List Char) : Nat :=
  cs.foldl (fun n c => 10 * n + (c.toNat - 48)) 0

/-- Reads a decimal such as `65.50`; `none` when the text is not one. -/
def parseDecimal (text : String) : Option Float64 :=
  let neg := text.data.head? == some '-'
  let body := if neg then text.data.tail else text.data
  let whole := body.takeWhile fun c => c != '.'
  let frac := (body.dropWhile fun c => c != '.').tail
  if whole.isEmpty || !(whole ++ frac).all Char.isDigit then none
  else some (.finite neg (digitsValue (whole ++ frac)) frac.length)

/-- Serving a POST on weight.json. -/
def postWeight (s : State) (q : Values) : Reply × State :=
  match q.lookup "weight", q.lookup "date", q.lookup "time" with
  | some w, some d, some tm =>
    match parseDecimal w with
    | some x =>
      (.response 201 none,
        { s with weight := s.weight ++
            [{ BMI := .finite false 0 0, Date := d, Fat := .finite false 0 0,
               LogId := s.weight.length, Source := "API", Time := tm, Weight := x }] })
    | none => (.response 400 none, s)
  | _, _, _ => (.response 400 none, s)

/-- Serving a POST on fat.json. -/
def postFat (s : State) (q : Values) : Reply × State :=
  match q.lookup "fat", q.lookup "date", q.lookup "time" with
  | some f, some d, some tm =>
    match parseDecimal f with
    | some x =>
      (.response 201 none,
        { s with fat := s.fat ++
            [{ Date := d, Fat := x, LogId := s.fat.length, Source := "API", Time := tm }] })
    | none => (.response 400 none, s)
  | _, _, _ => (.response 400 none, s)

/-- The service answering a request. -/
def serve (s : State) (req : Request) : Reply × State :=
  match s.quota with
  | 0 => (.response 429 none, s)
  | q + 1 =>
    if req.Method = "GET" then
      (.response 200 (some ⟨s.weight.filter fun e => logURL e.Date = req.URL⟩),
        { s with quota := q })
    else if req.URL = "https://api.fitbit.com/1/user/-/body/log/weight.json" then
      postWeight { s with quota := q } req.Query
    else if req.URL = "https://api.fitbit.com/1/user/-/body/log/fat.json" then
      postFat { s with quota := q } req.Query
    else (.response 404 none, { s with quota := q })

/-- The API over the service, with a token source that always has a token. -/
def api : FitbitAPI State where
  Client := serve
  TokenSource := fun s => (some ⟨"access", "refresh"⟩, s)

/-- The date has an entry in the weight log. -/
def Logged (s : State) (date : String) : Prop :=
  ∃ e ∈ s.weight, e.Date = date

/-- An empty service with a quota of requests. -/
def fresh (quota : Nat) : State :=
  { weight := [], fat := [], quota := quota }

/-- A service with one weight entry, on 2024-03-01. -/
def used (quota : Nat) : State :=
  { weight := [{ BMI := .finite false 0 0, Date := "2024-03-01", Fat := .finite false 0 0,
                 LogId := 0, Source := "API", Time := "06:00:00",
                 Weight := .finite false 64 0 }]
    fat := [], quota := quota }

/-- No `.env` that can be opened. -/
def noEnv : Disk := ⟨none, []⟩

/-- The timestamp 2024-03-01T07:00:00. -/
def t1 : Time := ⟨2024, 3, 1, 7, 0, 0⟩

/-- The timestamp 2024-03-02T07:30:00. -/
def t2 : Time := ⟨2024, 3, 2, 7, 30, 0⟩

/-- The timestamp 2024-03-01T21:00:00, on the date of `t1`. -/
def t3 : Time := ⟨2024, 3, 1, 21, 0, 0⟩

/-- The weight 65.50. -/
def w6550 : Float64 := .finite false 655 1

/-- The body fat value 20.25. -/
def f2025 : Float64 := .finite false 2025 2

end service

namespace main

open htf

/-- What the loop and its second run need of the environment: a date that shows
in the weight log keeps showing whatever is requested next, a read tells whether
the date shows, and a weight write that is answered with a status the client
takes for success shows on its date. -/
structure Lawful {σ : Type} (api : FitbitAPI σ) (Logged : σ → String → Prop) : Prop where
  token_keeps : ∀ s d, Logged s d → Logged (api.TokenSource s).2 d
  client_keeps : ∀ s req d, Logged s d → Logged (api.Client s req).2 d
  read_sound : ∀ s t code body,
    (api.Client s (logRequest t)).1 = .response code (some body) →
    invalidStatus code = false → body.Weight ≠ [] →
    Logged (api.Client s (logRequest t)).2 t.FormatDate
  read_complete : ∀ s t code body, Logged s t.FormatDate →
    (api.Client s (logRequest t)).1 = .response code (some body) →
    invalidStatus code = false → body.Weight ≠ []
  write_shows : ∀ s w t code body,
    (api.Client s (weightRequest w t)).1 = .response code body →
    invalidStatus code = false →
    Logged (api.Client s (weightRequest w t)).2 t.FormatDate

/-- Only the last of `calls` may have returned an error, and then `fatal` is
the `log.Fatalf` for that error. -/
def StopsAtError (calls : List Call) (fatal : Option (String × Error)) : Prop :=
  ∀ (before : List Call) (c : Call) (after : List Call) (e : Error),
    calls = before ++ c :: after → c.err = some e → after = [] ∧ ∃ m, fatal = some (m, e)

end main

/-! # Theorems -/

namespace htf

/-! ## The credential file -/

theorem updateLines_length (key value : String) (lines : List String) :
    (updateLines key value lines).length = lines.length := by
  simp [updateLines]

theorem updateLines_getElem? (key value : String) (lines : List String) (i : Nat) :
    (updateLines key value lines)[i]? =
      lines[i]?.map fun line =>
        if HasPrefix line (key ++ "=") then key ++ "=" ++ value else line := by
  simp [updateLines]

theorem updateLines_of_no_key (key value : String) (lines : List String)
    (h : ∀ l ∈ lines, HasPrefix l (key ++ "=") = false) :
    updateLines key value lines = lines := by
  unfold updateLines
  conv_rhs => rw [← List.map_id lines]
  apply List.map_congr_left
  intro l hl
  simp [h l hl]

theorem splitLF_ne_nil (cs : List Char) : splitLF cs ≠ [] := by
  induction cs with
  | nil => simp [splitLF]
  | cons c cs ih =>
    unfold splitLF
    split
    · simp
    · split
      · simp
      · simp

theorem splitLF_line (l rest : List Char) (h : '\n' ∉ l) :
    splitLF (l ++ '\n' :: rest) = l :: splitLF rest := by
  induction l with
  | nil => simp [splitLF]
  | cons c l ih =>
    have hc : c ≠ '\n' := fun e => h (by simp [e])
    have hl : '\n' ∉ l := fun e => h (List.mem_cons_of_mem _ e)
    rw [List.cons_append, splitLF, if_neg hc, ih hl]

theorem splitLF_printLines (lines : List String) (h : ∀ l ∈ lines, '\n' ∉ l.data) :
    splitLF (printLines lines).data = lines.map String.data ++ [[]] := by
  induction lines with
  | nil => simp [printLines, splitLF]
  | cons l ls ih =>
    have h1 : '\n' ∉ l.data := h l (List.mem_cons_self _ _)
    have h2 := ih fun x hx => h x (List.mem_cons_of_mem _ hx)
    simp only [printLines, List.flatMap_cons, List.append_assoc, List.singleton_append,
      List.map_cons, List.cons_append] at h2 ⊢
    rw [splitLF_line _ _ h1, List.nil_append, h2]

theorem rawLines_printLines (lines : List String) (h : ∀ l ∈ lines, '\n' ∉ l.data) :
    rawLines (printLines lines) = lines.map String.data := by
  unfold rawLines
  rw [splitLF_printLines lines h]
  simp

theorem scanLines_printLines (lines : List String) (h : ∀ l ∈ lines, Plain l) :
    scanLines (printLines lines) = some lines := by
  unfold scanLines
  rw [rawLines_printLines lines fun l hl => (h l hl).1]
  have hany : (List.map String.data lines).any
      (fun l => decide (MaxScanTokenSize ≤ (String.mk l).utf8ByteSize)) = false := by
    rw [List.any_eq_false]
    intro x hx
    obtain ⟨l, hl, rfl⟩ := List.mem_map.mp hx
    have := (h l hl).2.2
    simp only [decide_eq_true_eq, not_le]
    exact this
  rw [hany]
  simp only [Bool.false_eq_true, if_false, List.map_map, Option.some.injEq]
  conv_rhs => rw [← List.map_id lines]
  apply List.map_congr_left
  intro l hl
  simp [dropCR, (h l hl).2.1]

theorem splitLF_noLF (cs : List Char) : ∀ l ∈ splitLF cs, '\n' ∉ l := by
  induction cs with
  | nil => simp [splitLF]
  | cons c cs ih =>
    unfold splitLF
    split
    · intro l hl
      rcases List.mem_cons.mp hl with h | h
      · simp [h]
      · exact ih l h
    · rename_i hc
      split
      · intro l hl
        simp only [List.mem_singleton] at hl
        simp [hl, Ne.symm hc]
      · rename_i l0 ls heq
        intro l hl
        rcases List.mem_cons.mp hl with h | h
        · rw [h]
          have := ih l0 (by rw [heq]; exact List.mem_cons_self _ _)
          simp [Ne.symm hc, this]
        · exact ih l (by rw [heq]; exact List.mem_cons_of_mem _ h)

theorem rawLines_noLF (content : String) : ∀ l ∈ rawLines content, '\n' ∉ l := by
  intro l hl
  unfold rawLines at hl
  split at hl
  · exact splitLF_noLF _ l (List.mem_of_mem_dropLast hl)
  · exact splitLF_noLF _ l hl

theorem dropCR_sublist (l : List Char) : (dropCR l).Sublist l := by
  unfold dropCR
  split
  · exact List.dropLast_sublist l
  · exact List.Sublist.refl l

theorem utf8Len_dropLast_le (l : List Char) : String.utf8Len l.dropLast ≤ String.utf8Len l := by
  induction l with
  | nil => simp
  | cons a l ih =>
    cases l with
    | nil => simp
    | cons b l =>
      simp only [List.dropLast_cons₂, String.utf8Len_cons] at ih ⊢
      omega

theorem scanLines_lines (content : String) (lines : List String)
    (h : scanLines content = some lines) :
    ∀ l ∈ lines, '\n' ∉ l.data ∧ l.utf8ByteSize < MaxScanTokenSize := by
  unfold scanLines at h
  split at h
  · cases h
  · rename_i hany
    simp only [Option.some.injEq] at h
    subst h
    intro l hl
    obtain ⟨raw, hraw, rfl⟩ := List.mem_map.mp hl
    refine ⟨?_, ?_⟩
    · intro hmem
      exact rawLines_noLF content raw hraw ((dropCR_sublist raw).mem hmem)
    · simp only [Bool.not_eq_true, List.any_eq_false, decide_eq_true_eq, not_le] at hany
      have h1 := hany raw hraw
      have h2 : String.utf8Len (dropCR raw) ≤ String.utf8Len raw := by
        unfold dropCR
        split
        · exact utf8Len_dropLast_le raw
        · exact le_refl _
      simp only [String.utf8ByteSize_mk] at h1 ⊢
      omega

/-- The Scanner ends in `bufio.ErrTooLong` exactly when a line of the file has
65536 bytes or more before its line feed. -/
theorem scanLines_eq_none_iff (content : String) :
    scanLines content = none ↔
      ∃ l ∈ rawLines content, 65536 ≤ (String.mk l).utf8ByteSize := by
  have hmax : MaxScanTokenSize = 65536 := by decide
  unfold scanLines
  rw [hmax]
  by_cases h : ∃ l ∈ rawLines content, 65536 ≤ (String.mk l).utf8ByteSize
  · have hany : (rawLines content).any
        (fun l => decide (65536 ≤ (String.mk l).utf8ByteSize)) = true := by
      rw [List.any_eq_true]
      obtain ⟨l, hl, hs⟩ := h
      exact ⟨l, hl, decide_eq_true hs⟩
    simp only [hany, if_true, true_iff]
    exact h
  · have hany : (rawLines content).any
        (fun l => decide (65536 ≤ (String.mk l).utf8ByteSize)) = false := by
      rw [List.any_eq_false]
      intro l hl hd
      exact h ⟨l, hl, of_decide_eq_true hd⟩
    simp only [hany, Bool.false_eq_true, if_false, iff_false_intro h]
    simp

theorem hasPrefix_subset (line p : String) (h : HasPrefix line p = true) :
    ∀ c ∈ p.data, c ∈ line.data := by
  unfold HasPrefix at h
  rw [List.isPrefixOf_iff_prefix] at h
  exact fun c hc => h.subset hc

theorem updateLines_plain (key value : String) (lines : List String)
    (hl : ∀ l ∈ lines, Plain l) (hlf : '\n' ∉ value.data)
    (hvcr : value.data.getLast? ≠ some '\r')
    (hsize : (key ++ "=" ++ value).utf8ByteSize < MaxScanTokenSize) :
    ∀ l ∈ updateLines key value lines, Plain l := by
  intro l hmem
  obtain ⟨x, hx, rfl⟩ := List.mem_map.mp hmem
  by_cases hp : HasPrefix x (key ++ "=") = true
  · simp only [hp, if_true]
    have hkey : '\n' ∉ key.data := by
      intro hk
      exact (hl x hx).1 (hasPrefix_subset x _ hp _ (by simp [String.data_append, hk]))
    refine ⟨?_, ?_, hsize⟩
    · simp [String.data_append, hkey, hlf]
    · cases hv : value.data with
      | nil => simp [String.data_append, hv]
      | cons a as =>
        rw [hv] at hvcr
        simpa [String.data_append, hv, List.getLast?_append] using hvcr
  · simp only [hp, if_false]
    exact hl x hx

theorem updateEnvFile_of_lines (key value : String) (disk : Disk) (lines : List String)
    (hlines : disk.lines = some lines)
    (hw : disk.rewrites = [] ∨ ∃ rest, disk.rewrites = .ok :: rest) :
    updateEnvFile key value disk =
      (false, ⟨some (printLines (updateLines key value lines)), disk.rewrites.tail⟩) := by
  unfold Disk.lines at hlines
  cases hf : disk.file with
  | none => simp [hf] at hlines
  | some content =>
    rw [hf] at hlines
    have hs : scanLines content = some lines := by simpa using hlines
    unfold updateEnvFile
    rcases hw with hw | ⟨rest, hw⟩ <;> simp [hf, hs, hw]

theorem updateEnvFile_of_no_lines (key value : String) (disk : Disk)
    (hlines : disk.lines = none) : updateEnvFile key value disk = (true, disk) := by
  unfold Disk.lines at hlines
  unfold updateEnvFile
  cases hf : disk.file with
  | none => rfl
  | some content =>
    rw [hf] at hlines
    have hs : scanLines content = none := by simpa using hlines
    simp [hs]

theorem lines_plain (disk : Disk) (lines : List String) (hlines : disk.lines = some lines)
    (hcr : ∀ l ∈ lines, l.data.getLast? ≠ some '\r') : ∀ l ∈ lines, Plain l := by
  unfold Disk.lines at hlines
  cases hf : disk.file with
  | none => simp [hf] at hlines
  | some content =>
    rw [hf] at hlines
    have hs : scanLines content = some lines := by simpa using hlines
    intro l hl
    have h := scanLines_lines content lines hs l hl
    exact ⟨h.1, hcr l hl, h.2⟩

/-- C6, as the code has it: when `.env` can be opened, none of its lines is too
long for the Scanner and none ends in a carriage return once scanned, the file
system takes the rewrite, and the value has no line feed in it and no carriage
return at its end (with `key=value` short enough to be scanned again), then
`updateEnvFile` returns no error and the file it leaves has as many lines as
before, a line that began with `key=` being `key=value` and any other line being
unchanged at its position; when no line began with `key=` the lines are the ones
read, nothing being appended. On `ACCESS_TOKEN=old`, `UNRELATED=x` the update of
`ACCESS_TOKEN` to `new` gives `ACCESS_TOKEN=new`, `UNRELATED=x`. -/
theorem C6_updateEnvFile_update_only (key value : String) (disk : Disk)
    (lines : List String)
    (hlines : disk.lines = some lines)
    (hw : disk.rewrites = [] ∨ ∃ rest, disk.rewrites = .ok :: rest)
    (hcr : ∀ l ∈ lines, l.data.getLast? ≠ some '\r')
    (hlf : '\n' ∉ value.data) (hvcr : value.data.getLast? ≠ some '\r')
    (hsize : (key ++ "=" ++ value).utf8ByteSize < MaxScanTokenSize) :
    (updateEnvFile key value disk).1 = false ∧
      (∃ out : List String, (updateEnvFile key value disk).2.lines = some out ∧
        out.length = lines.length ∧
        (∀ (i : Nat) (line : String), lines[i]? = some line →
          out[i]? = some (if HasPrefix line (key ++ "=") then key ++ "=" ++ value else line)) ∧
        ((∀ l ∈ lines, HasPrefix l (key ++ "=") = false) → out = lines)) ∧
      updateEnvFile "ACCESS_TOKEN" "new" ⟨some "ACCESS_TOKEN=old\nUNRELATED=x\n", []⟩ =
        (false, ⟨some "ACCESS_TOKEN=new\nUNRELATED=x\n", []⟩) := by
  rw [updateEnvFile_of_lines key value disk lines hlines hw]
  refine ⟨rfl, ⟨updateLines key value lines, ?_, updateLines_length key value lines, ?_, ?_⟩,
    by decide⟩
  · exact scanLines_printLines _
      (updateLines_plain key value lines (lines_plain disk lines hlines hcr) hlf hvcr hsize)
  · intro i line h
    rw [updateLines_getElem?, h]
    rfl
  · exact updateLines_of_no_key key value lines

theorem C6_updateEnvFile_update_only_witness :
    (⟨some "ACCESS_TOKEN=old\r\nUNRELATED=x\nREFRESH_TOKEN=r0", [.ok, .createFails]⟩ :
        Disk).lines = some ["ACCESS_TOKEN=old", "UNRELATED=x", "REFRESH_TOKEN=r0"] ∧
      (updateEnvFile "ACCESS_TOKEN" "new"
        ⟨some "ACCESS_TOKEN=old\r\nUNRELATED=x\nREFRESH_TOKEN=r0", [.ok, .createFails]⟩).1 =
        false ∧
      (updateEnvFile "ACCESS_TOKEN" "new"
        ⟨some "ACCESS_TOKEN=old\r\nUNRELATED=x\nREFRESH_TOKEN=r0",
          [.ok, .createFails]⟩).2.lines =
        some ["ACCESS_TOKEN=new", "UNRELATED=x", "REFRESH_TOKEN=r0"] :=
  ⟨by decide,
    (C6_updateEnvFile_update_only "ACCESS_TOKEN" "new"
      ⟨some "ACCESS_TOKEN=old\r\nUNRELATED=x\nREFRESH_TOKEN=r0", [.ok, .createFails]⟩
      ["ACCESS_TOKEN=old", "UNRELATED=x", "REFRESH_TOKEN=r0"] (by decide)
      (Or.inr ⟨[.createFails], rfl⟩) (by decide) (by decide) (by decide) (by decide)).1,
    by decide⟩

/-- C6 fails as stated: in a `.env` whose first line is `UNRELATED=x` followed
by two carriage returns, the Scanner reads that line with one carriage return at
its end; the update of `ACCESS_TOKEN` to `new` returns no error and the line
stands in the file afterwards without it, though it does not begin with
`ACCESS_TOKEN=`. -/
theorem C6_updateEnvFile_drops_carriage_return :
    (⟨some "UNRELATED=x\r\r\nACCESS_TOKEN=old\n", []⟩ : Disk).lines =
        some ["UNRELATED=x\r", "ACCESS_TOKEN=old"] ∧
      HasPrefix "UNRELATED=x\r" ("ACCESS_TOKEN" ++ "=") = false ∧
      updateEnvFile "ACCESS_TOKEN" "new" ⟨some "UNRELATED=x\r\r\nACCESS_TOKEN=old\n", []⟩ =
        (false, ⟨some "UNRELATED=x\r\nACCESS_TOKEN=new\n", []⟩) ∧
      (⟨some "UNRELATED=x\r\nACCESS_TOKEN=new\n", []⟩ : Disk).lines =
        some ["UNRELATED=x", "ACCESS_TOKEN=new"] ∧
      ("UNRELATED=x" : String) ≠ "UNRELATED=x\r" := by
  decide

theorem saveToken_lines (token : Token) (disk : Disk) (hw : disk.rewrites = [])
    (hlines : ∀ lines, disk.lines = some lines → ∀ l ∈ lines,
      HasPrefix l "ACCESS_TOKEN=" = false ∧ HasPrefix l "REFRESH_TOKEN=" = false ∧
        l.data.getLast? ≠ some '\r') :
    (saveToken token disk).lines = disk.lines := by
  unfold saveToken
  cases hl : disk.lines with
  | none =>
    rw [updateEnvFile_of_no_lines _ _ disk hl, updateEnvFile_of_no_lines _ _ disk hl]
    exact hl
  | some lines =>
    have h := hlines lines hl
    have hplain := lines_plain disk lines hl fun l hm => (h l hm).2.2
    have h1 : updateLines "ACCESS_TOKEN" token.AccessToken lines = lines :=
      updateLines_of_no_key _ _ _ fun l hm => (h l hm).1
    have h2 : updateLines "REFRESH_TOKEN" token.RefreshToken lines = lines :=
      updateLines_of_no_key _ _ _ fun l hm => (h l hm).2.1
    have hscan : (⟨some (printLines lines), []⟩ : Disk).lines = some lines :=
      scanLines_printLines lines hplain
    rw [updateEnvFile_of_lines _ _ disk lines hl (Or.inl hw), h1, hw]
    show (updateEnvFile "REFRESH_TOKEN" token.RefreshToken
      ⟨some (printLines lines), []⟩).2.lines = some lines
    rw [updateEnvFile_of_lines _ _ _ lines hscan (Or.inl rfl), h2]
    exact hscan

theorem GetBodyWeightLog_env {σ : Type} (api : FitbitAPI σ) (sys : Sys σ) (date : Time) :
    (GetBodyWeightLog api sys date).sys.env = sys.env ∨
      ∃ token, (GetBodyWeightLog api sys date).sys.env = saveToken token sys.env := by
  cases htk : (api.TokenSource sys.remote).1 with
  | none => exact Or.inl (by simp [GetBodyWeightLog, htk])
  | some token =>
    refine Or.inr ⟨token, ?_⟩
    cases hr : (api.Client (api.TokenSource sys.remote).2 (logRequest date)).1 with
    | failed => simp [GetBodyWeightLog, htk, hr]
    | response code body =>
      cases hc : invalidStatus code <;> cases body <;> simp [GetBodyWeightLog, htk, hr, hc]

/-- C10, as the code has it: when the file system takes the rewrites, and no
line of `.env` begins with `ACCESS_TOKEN=` or with `REFRESH_TOKEN=`, as in a
file keyed `FITBIT_ACCESS_TOKEN=` and `FITBIT_REFRESH_TOKEN=`, nor ends in a
carriage return once scanned, the lines of the file after `saveToken` are the
lines before it, for every token; so `GetBodyWeightLog`, which saves the token
it obtained, leaves the lines as they were, and the token is not recorded. -/
theorem C10_saveToken_misses_fitbit_keys (token : Token) (disk : Disk)
    (hw : disk.rewrites = [])
    (hlines : ∀ lines, disk.lines = some lines → ∀ l ∈ lines,
      HasPrefix l "ACCESS_TOKEN=" = false ∧ HasPrefix l "REFRESH_TOKEN=" = false ∧
        l.data.getLast? ≠ some '\r') :
    (saveToken token disk).lines = disk.lines ∧
      ∀ (σ : Type) (api : FitbitAPI σ) (remote : σ) (date : Time),
        (GetBodyWeightLog api ⟨remote, disk⟩ date).sys.env.lines = disk.lines := by
  refine ⟨saveToken_lines token disk hw hlines, ?_⟩
  intro σ api remote date
  rcases GetBodyWeightLog_env api ⟨remote, disk⟩ date with h1 | ⟨tk, h1⟩
  · rw [h1]
  · rw [h1]
    exact saveToken_lines tk disk hw hlines

theorem C10_saveToken_misses_fitbit_keys_witness :
    (⟨some "FITBIT_ACCESS_TOKEN=a0\r\nFITBIT_REFRESH_TOKEN=r0", []⟩ : Disk).lines =
        some ["FITBIT_ACCESS_TOKEN=a0", "FITBIT_REFRESH_TOKEN=r0"] ∧
      (saveToken ⟨"a1", "r1"⟩
        ⟨some "FITBIT_ACCESS_TOKEN=a0\r\nFITBIT_REFRESH_TOKEN=r0", []⟩).lines =
        some ["FITBIT_ACCESS_TOKEN=a0", "FITBIT_REFRESH_TOKEN=r0"] ∧
      saveToken ⟨"a1", "r1"⟩ ⟨some "FITBIT_ACCESS_TOKEN=a0\r\nFITBIT_REFRESH_TOKEN=r0", []⟩ =
        ⟨some "FITBIT_ACCESS_TOKEN=a0\nFITBIT_REFRESH_TOKEN=r0\n", []⟩ :=
  have hl : (⟨some "FITBIT_ACCESS_TOKEN=a0\r\nFITBIT_REFRESH_TOKEN=r0", []⟩ : Disk).lines =
      some ["FITBIT_ACCESS_TOKEN=a0", "FITBIT_REFRESH_TOKEN=r0"] := by decide
  ⟨hl,
    hl ▸ (C10_saveToken_misses_fitbit_keys ⟨"a1", "r1"⟩
      ⟨some "FITBIT_ACCESS_TOKEN=a0\r\nFITBIT_REFRESH_TOKEN=r0", []⟩ rfl
      (fun lines h => by
        rw [hl] at h
        cases h
        decide)).1,
    by decide⟩

/-- C10 fails as stated: in a `.env` keyed `FITBIT_ACCESS_TOKEN=` and
`FITBIT_REFRESH_TOKEN=` whose first line is followed by two carriage returns,
no scanned line begins with `ACCESS_TOKEN=` or `REFRESH_TOKEN=`, and the lines
after `saveToken` differ from the lines before it: the first has lost the
carriage return at its end. -/
theorem C10_saveToken_drops_carriage_return :
    (⟨some "FITBIT_ACCESS_TOKEN=a0\r\r\nFITBIT_REFRESH_TOKEN=r0\n", []⟩ : Disk).lines =
        some ["FITBIT_ACCESS_TOKEN=a0\r", "FITBIT_REFRESH_TOKEN=r0"] ∧
      (∀ l ∈ ["FITBIT_ACCESS_TOKEN=a0\r", "FITBIT_REFRESH_TOKEN=r0"],
        HasPrefix l "ACCESS_TOKEN=" = false ∧ HasPrefix l "REFRESH_TOKEN=" = false) ∧
      (saveToken ⟨"a1", "r1"⟩
        ⟨some "FITBIT_ACCESS_TOKEN=a0\r\r\nFITBIT_REFRESH_TOKEN=r0\n", []⟩).lines =
        some ["FITBIT_ACCESS_TOKEN=a0", "FITBIT_REFRESH_TOKEN=r0"] ∧
      (saveToken ⟨"a1", "r1"⟩
        ⟨some "FITBIT_ACCESS_TOKEN=a0\r\r\nFITBIT_REFRESH_TOKEN=r0\n", []⟩).lines ≠
        (⟨some "FITBIT_ACCESS_TOKEN=a0\r\r\nFITBIT_REFRESH_TOKEN=r0\n", []⟩ : Disk).lines := by
  decide

/-! ## Formatting -/

theorem toDigitsCore_small (fuel n : Nat) (ds : List Char) (h : n < 10) :
    Nat.toDigitsCore 10 (fuel + 1) n ds = Nat.digitChar n :: ds := by
  have h1 : n / 10 = 0 := by omega
  have h2 : n % 10 = n := by omega
  simp [Nat.toDigitsCore, h1, h2]

theorem toDigitsCore_step (fuel n : Nat) (ds : List Char) (h : 10 ≤ n) :
    Nat.toDigitsCore 10 (fuel + 1) n ds =
      Nat.toDigitsCore 10 fuel (n / 10) (Nat.digitChar (n % 10) :: ds) := by
  have h1 : n / 10 ≠ 0 := by omega
  simp [Nat.toDigitsCore, h1]

theorem toDigits_lt_10 (n : Nat) (h : n < 10) : Nat.toDigits 10 n = [Nat.digitChar n] := by
  unfold Nat.toDigits
  exact toDigitsCore_small n n [] h

theorem toDigits_lt_100 (n : Nat) (h1 : 10 ≤ n) (h : n < 100) :
    Nat.toDigits 10 n = [Nat.digitChar (n / 10), Nat.digitChar (n % 10)] := by
  unfold Nat.toDigits
  obtain ⟨k, rfl⟩ : ∃ k, n = k + 1 := ⟨n - 1, by omega⟩
  rw [toDigitsCore_step _ _ _ h1, toDigitsCore_small _ _ _ (by omega)]

theorem toDigits_lt_1000 (n : Nat) (h1 : 100 ≤ n) (h : n < 1000) :
    Nat.toDigits 10 n =
      [Nat.digitChar (n / 100), Nat.digitChar (n / 10 % 10), Nat.digitChar (n % 10)] := by
  unfold Nat.toDigits
  obtain ⟨k, rfl⟩ : ∃ k, n = k + 2 := ⟨n - 2, by omega⟩
  rw [toDigitsCore_step _ _ _ (by omega), toDigitsCore_step _ _ _ (by omega),
    toDigitsCore_small _ _ _ (by omega)]
  have : (k + 2) / 10 / 10 = (k + 2) / 100 := by omega
  rw [this]

theorem toDigits_lt_10000 (n : Nat) (h1 : 1000 ≤ n) (h : n < 10000) :
    Nat.toDigits 10 n =
      [Nat.digitChar (n / 1000), Nat.digitChar (n / 100 % 10), Nat.digitChar (n / 10 % 10),
        Nat.digitChar (n % 10)] := by
  unfold Nat.toDigits
  obtain ⟨k, rfl⟩ : ∃ k, n = k + 3 := ⟨n - 3, by omega⟩
  rw [toDigitsCore_step _ _ _ (by omega), toDigitsCore_step _ _ _ (by omega),
    toDigitsCore_step _ _ _ (by omega), toDigitsCore_small _ _ _ (by omega)]
  have e1 : (k + 3) / 10 / 10 / 10 = (k + 3) / 1000 := by omega
  have e2 : (k + 3) / 10 / 10 % 10 = (k + 3) / 100 % 10 := by omega
  rw [e1, e2]

theorem zeroPad_data (width n : Nat) :
    (zeroPad width n).data =
      List.replicate (width - (Nat.toDigits 10 n).length) '0' ++ Nat.toDigits 10 n := by
  simp [zeroPad, String.data_append, toString, Nat.repr, String.length, List.asString]

theorem zeroPad_two (n : Nat) (h : n < 100) :
    zeroPad 2 n = String.mk [digitAt n 1, digitAt n 0] := by
  apply String.ext
  rw [zeroPad_data]
  by_cases h1 : n < 10
  · rw [toDigits_lt_10 n h1]
    have : n / 10 = 0 := by omega
    have h2 : n % 10 = n := by omega
    simp [digitAt, this, h2]
    rfl
  · rw [toDigits_lt_100 n (by omega) h]
    have : n / 10 % 10 = n / 10 := by omega
    simp [digitAt, this]

theorem zeroPad_four (n : Nat) (h : n < 10000) :
    zeroPad 4 n = String.mk [digitAt n 3, digitAt n 2, digitAt n 1, digitAt n 0] := by
  apply String.ext
  rw [zeroPad_data]
  have z : Nat.digitChar 0 = '0' := rfl
  by_cases h1 : n < 10
  · rw [toDigits_lt_10 n h1]
    have e3 : n / 1000 % 10 = 0 := by omega
    have e2 : n / 100 % 10 = 0 := by omega
    have e1 : n / 10 % 10 = 0 := by omega
    have e0 : n % 10 = n := by omega
    simp [digitAt, e3, e2, e1, e0, z, List.replicate]
  · by_cases h2 : n < 100
    · rw [toDigits_lt_100 n (by omega) h2]
      have e3 : n / 1000 % 10 = 0 := by omega
      have e2 : n / 100 % 10 = 0 := by omega
      have e1 : n / 10 % 10 = n / 10 := by omega
      simp [digitAt, e3, e2, e1, z, List.replicate]
    · by_cases h3 : n < 1000
      · rw [toDigits_lt_1000 n (by omega) h3]
        have e3 : n / 1000 % 10 = 0 := by omega
        have e2 : n / 100 % 10 = n / 100 := by omega
        simp [digitAt, e3, e2, z, List.replicate]
      · rw [toDigits_lt_10000 n (by omega) h]
        have e3 : n / 1000 % 10 = n / 1000 := by omega
        simp [digitAt, e3]

theorem FormatDate_eq (t : Time) (hy : t.Year < 10000) (hm : t.Month < 100) (hd : t.Day < 100) :
    t.FormatDate = YYYYMMDD t := by
  unfold Time.FormatDate YYYYMMDD
  rw [zeroPad_four _ hy, zeroPad_two _ hm, zeroPad_two _ hd]
  rfl

theorem FormatClock_eq (t : Time) (hh : t.Hour < 100) (hm : t.Minute < 100)
    (hs : t.Second < 100) : t.FormatClock = HHMMSS t := by
  unfold Time.FormatClock HHMMSS
  rw [zeroPad_two _ hh, zeroPad_two _ hm, zeroPad_two _ hs]
  rfl

/-- The hundredths `FormatFloat` prints are the nearest ones to the value, the
even ones of two equally near. -/
theorem roundHalfEven_nearest (n d : Nat) (hd : 0 < d) :
    2 * (roundHalfEven n d * d) ≤ 2 * n + d ∧ 2 * n ≤ 2 * (roundHalfEven n d * d) + d ∧
      ((2 * (roundHalfEven n d * d) = 2 * n + d ∨ 2 * n = 2 * (roundHalfEven n d * d) + d) →
        roundHalfEven n d % 2 = 0) := by
  have h1 : d * (n / d) + n % d = n := Nat.div_add_mod n d
  have h2 : n % d < d := Nat.mod_lt n hd
  have h3 : (n / d + 1) * d = d * (n / d) + d := by ring
  have h4 : n / d * d = d * (n / d) := by ring
  unfold roundHalfEven
  simp only
  split_ifs <;> simp only [h3, h4] <;> omega

theorem FormatFloat_not_finite :
    FormatFloat .nan = "NaN" ∧ FormatFloat (.inf false) = "+Inf" ∧
      FormatFloat (.inf true) = "-Inf" := by
  decide

/-- On a finite value `FormatFloat` prints the 2-decimal numeral of the nearest
hundredths. -/
theorem FormatFloat_finite (neg : Bool) (digits scale : Nat) :
    ∃ h, NearestHundredths digits scale h ∧
      FormatFloat (.finite neg digits scale) = twoDecimals neg h := by
  refine ⟨roundHalfEven (digits * 100) (10 ^ scale),
    roundHalfEven_nearest _ _ (Nat.pos_pow_of_pos _ (by decide)), ?_⟩
  unfold FormatFloat twoDecimals
  simp only
  rw [zeroPad_two _ (Nat.mod_lt _ (by decide))]
  apply String.ext
  have e1 : roundHalfEven (digits * 100) (10 ^ scale) % 100 / 10 % 10 =
      roundHalfEven (digits * 100) (10 ^ scale) / 10 % 10 := by omega
  have e0 : roundHalfEven (digits * 100) (10 ^ scale) % 100 % 10 =
      roundHalfEven (digits * 100) (10 ^ scale) % 10 := by omega
  cases neg <;>
    simp [String.data_append, toString, Nat.repr, List.asString, digitAt, e1, e0]

/-! ## Status codes of the write calls -/

theorem invalidStatus_eq_false_iff (s : Int) : invalidStatus s = false ↔ 200 ≤ s ∧ s < 400 := by
  simp [invalidStatus]

theorem CreateWeightLog_err_of_response {σ : Type} (api : FitbitAPI σ) (sys : Sys σ)
    (x : Float64) (t : Time) (s : Int) (body : Option GetWeightLogResponse)
    (h : (api.Client sys.remote (weightRequest x t)).1 = .response s body) :
    (CreateWeightLog api sys x t).err =
      if invalidStatus s then
        some (.status "failed to create weight log in fitbit(invalid status code)" s)
      else none := by
  unfold CreateWeightLog
  simp only [h]
  split <;> rfl

theorem CreateBodyFatLog_err_of_response {σ : Type} (api : FitbitAPI σ) (sys : Sys σ)
    (x : Float64) (t : Time) (s : Int) (body : Option GetWeightLogResponse)
    (h : (api.Client sys.remote (fatRequest x t)).1 = .response s body) :
    (CreateBodyFatLog api sys x t).err =
      if invalidStatus s then
        some (.status "failed to create fat log in fitbit(invalid status code)" s)
      else none := by
  unfold CreateBodyFatLog
  simp only [h]
  split <;> rfl

end htf

namespace htf

/-- C4: when the transport delivers a response with status code `s` to the
request of `CreateWeightLog`, the call returns no error exactly when
`200 <= s < 400`, and likewise for `CreateBodyFatLog`; so 201 and 399 are taken
for success and 199, 400 and 404 for failure. -/
theorem C4_write_ok_iff_status {σ : Type} (api : FitbitAPI σ) (sys : Sys σ) (x : Float64)
    (t : Time) (s : Int) :
    (∀ body, (api.Client sys.remote (weightRequest x t)).1 = .response s body →
        ((CreateWeightLog api sys x t).err = none ↔ 200 ≤ s ∧ s < 400)) ∧
      (∀ body, (api.Client sys.remote (fatRequest x t)).1 = .response s body →
        ((CreateBodyFatLog api sys x t).err = none ↔ 200 ≤ s ∧ s < 400)) ∧
      (invalidStatus 201 = false ∧ invalidStatus 399 = false ∧ invalidStatus 199 = true ∧
        invalidStatus 400 = true ∧ invalidStatus 404 = true) := by
  refine ⟨?_, ?_, by decide⟩
  · intro body h
    rw [CreateWeightLog_err_of_response api sys x t s body h, ← invalidStatus_eq_false_iff]
    cases invalidStatus s <;> simp
  · intro body h
    rw [CreateBodyFatLog_err_of_response api sys x t s body h, ← invalidStatus_eq_false_iff]
    cases invalidStatus s <;> simp

theorem C4_write_ok_iff_status_witness :
    (CreateWeightLog service.api ⟨service.fresh 10, service.noEnv⟩ service.w6550 service.t1).err = none ∧
      (CreateBodyFatLog service.api ⟨service.fresh 0, service.noEnv⟩ service.f2025 service.t1).err ≠
        none :=
  ⟨((C4_write_ok_iff_status service.api ⟨service.fresh 10, service.noEnv⟩ service.w6550 service.t1
      201).1 none rfl).2 (by decide),
    fun h => absurd
      (((C4_write_ok_iff_status service.api ⟨service.fresh 0, service.noEnv⟩ service.f2025 service.t1
        429).2.1 none rfl).1 h) (by decide)⟩

theorem hasPrefix_append (p s : String) : HasPrefix (p ++ s) p = true := by
  simp [HasPrefix, String.data_append]

end htf

namespace main

open htf

/-! ## The token refresh -/

/-- C8 on the code: for a refresh response that is a JSON object with
`access_token` and without `refresh_token`, `refreshAccessToken` does not return
an error, it panics at the type assertion of line 110; `.env` is as it was. -/
theorem C8_refresh_panics_without_refresh_token :
    refreshAccessToken (fun _ => .body (some [("access_token", .string "a1")]))
        "id" "r0" (some ["FITBIT_ACCESS_TOKEN=a0", "FITBIT_REFRESH_TOKEN=r0"]) =
      (.panic, some ["FITBIT_ACCESS_TOKEN=a0", "FITBIT_REFRESH_TOKEN=r0"]) := by
  decide

end main

namespace htf

/-! ## What the three methods send and leave -/

theorem CreateWeightLog_http {σ : Type} (api : FitbitAPI σ) (sys : Sys σ) (x : Float64)
    (t : Time) :
    (CreateWeightLog api sys x t).http =
      [⟨weightRequest x t, (api.Client sys.remote (weightRequest x t)).1⟩] := by
  unfold CreateWeightLog
  dsimp only
  split
  · rfl
  · split <;> rfl

theorem CreateBodyFatLog_http {σ : Type} (api : FitbitAPI σ) (sys : Sys σ) (x : Float64)
    (t : Time) :
    (CreateBodyFatLog api sys x t).http =
      [⟨fatRequest x t, (api.Client sys.remote (fatRequest x t)).1⟩] := by
  unfold CreateBodyFatLog
  dsimp only
  split
  · rfl
  · split <;> rfl

theorem CreateWeightLog_remote {σ : Type} (api : FitbitAPI σ) (sys : Sys σ) (x : Float64)
    (t : Time) :
    (CreateWeightLog api sys x t).sys.remote = (api.Client sys.remote (weightRequest x t)).2 := by
  unfold CreateWeightLog
  dsimp only
  split
  · rfl
  · split <;> rfl

theorem CreateBodyFatLog_remote {σ : Type} (api : FitbitAPI σ) (sys : Sys σ) (x : Float64)
    (t : Time) :
    (CreateBodyFatLog api sys x t).sys.remote = (api.Client sys.remote (fatRequest x t)).2 := by
  unfold CreateBodyFatLog
  dsimp only
  split
  · rfl
  · split <;> rfl

theorem CreateWeightLog_status_of_429 {σ : Type} (api : FitbitAPI σ) (sys : Sys σ)
    (x : Float64) (t : Time) (req : Request) (body : Option GetWeightLogResponse)
    (h : (CreateWeightLog api sys x t).http = [⟨req, .response 429 body⟩]) :
    (CreateWeightLog api sys x t).err =
      some (.status "failed to create weight log in fitbit(invalid status code)" 429) := by
  rw [CreateWeightLog_http] at h
  have h1 : (api.Client sys.remote (weightRequest x t)).1 = .response 429 body := by
    simpa using congrArg (fun l => l.map Exchange.Reply) h
  rw [CreateWeightLog_err_of_response api sys x t 429 body h1]
  rfl

theorem CreateBodyFatLog_status_of_429 {σ : Type} (api : FitbitAPI σ) (sys : Sys σ)
    (x : Float64) (t : Time) (req : Request) (body : Option GetWeightLogResponse)
    (h : (CreateBodyFatLog api sys x t).http = [⟨req, .response 429 body⟩]) :
    (CreateBodyFatLog api sys x t).err =
      some (.status "failed to create fat log in fitbit(invalid status code)" 429) := by
  rw [CreateBodyFatLog_http] at h
  have h1 : (api.Client sys.remote (fatRequest x t)).1 = .response 429 body := by
    simpa using congrArg (fun l => l.map Exchange.Reply) h
  rw [CreateBodyFatLog_err_of_response api sys x t 429 body h1]
  rfl

end htf

namespace main

open htf

/-! ## One pass of the loop body -/

theorem loopBody_of_error {σ : Type} (api : FitbitAPI σ) (sys : Sys σ) (t : Time)
    (data : InnerScanData) (e : Error) (h : (GetBodyWeightLog api sys t).res = .error e) :
    loopBody api sys t data =
      ⟨some ("failed to get weight log from fitbit", e), (GetBodyWeightLog api sys t).sys,
        [.GetBodyWeightLog t (GetBodyWeightLog api sys t).http (.error e)]⟩ := by
  unfold loopBody
  simp only [h]

theorem loopBody_of_found {σ : Type} (api : FitbitAPI σ) (sys : Sys σ) (t : Time)
    (data : InnerScanData) (resp : GetWeightLogResponse)
    (h : (GetBodyWeightLog api sys t).res = .ok resp) (hne : resp.Weight ≠ []) :
    loopBody api sys t data =
      ⟨none, (GetBodyWeightLog api sys t).sys,
        [.GetBodyWeightLog t (GetBodyWeightLog api sys t).http (.ok resp)]⟩ := by
  unfold loopBody
  have hl : resp.Weight.length > 0 := List.length_pos.mpr hne
  simp only [h, hl, if_true]

theorem loopBody_of_empty {σ : Type} (api : FitbitAPI σ) (sys : Sys σ) (t : Time)
    (data : InnerScanData) (resp : GetWeightLogResponse)
    (h : (GetBodyWeightLog api sys t).res = .ok resp) (he : resp.Weight = []) :
    loopBody api sys t data =
      match (weightStep api (GetBodyWeightLog api sys t).sys t data).fatal with
      | some e =>
        ⟨some e, (weightStep api (GetBodyWeightLog api sys t).sys t data).sys,
          .GetBodyWeightLog t (GetBodyWeightLog api sys t).http (.ok resp) ::
            (weightStep api (GetBodyWeightLog api sys t).sys t data).calls⟩
      | none =>
        ⟨(fatStep api (weightStep api (GetBodyWeightLog api sys t).sys t data).sys t data).fatal,
          (fatStep api (weightStep api (GetBodyWeightLog api sys t).sys t data).sys t data).sys,
          .GetBodyWeightLog t (GetBodyWeightLog api sys t).http (.ok resp) ::
            ((weightStep api (GetBodyWeightLog api sys t).sys t data).calls ++
              (fatStep api (weightStep api (GetBodyWeightLog api sys t).sys t data).sys t
                data).calls)⟩ := by
  unfold loopBody
  simp only [h, he, List.length_nil, gt_iff_lt, lt_self_iff_false, if_false]

end main

namespace main

open htf

theorem weightStep_of_some {σ : Type} (api : FitbitAPI σ) (sys : Sys σ) (t : Time)
    (data : InnerScanData) (w : Float64) (hw : data.Weight = some w) :
    weightStep api sys t data =
      ⟨(CreateWeightLog api sys w t).err.map fun err => ("failed to create weight log", err),
        (CreateWeightLog api sys w t).sys,
        [.CreateWeightLog w t (CreateWeightLog api sys w t).http
          (CreateWeightLog api sys w t).err]⟩ := by
  unfold weightStep
  simp only [hw]

theorem weightStep_of_none {σ : Type} (api : FitbitAPI σ) (sys : Sys σ) (t : Time)
    (data : InnerScanData) (hw : data.Weight = none) :
    weightStep api sys t data = ⟨none, sys, []⟩ := by
  unfold weightStep
  simp only [hw]

theorem fatStep_of_some {σ : Type} (api : FitbitAPI σ) (sys : Sys σ) (t : Time)
    (data : InnerScanData) (f : Float64) (hf : data.Fat = some f) :
    fatStep api sys t data =
      ⟨(CreateBodyFatLog api sys f t).err.map fun err => ("failed to create fat log", err),
        (CreateBodyFatLog api sys f t).sys,
        [.CreateBodyFatLog f t (CreateBodyFatLog api sys f t).http
          (CreateBodyFatLog api sys f t).err]⟩ := by
  unfold fatStep
  simp only [hf]

theorem fatStep_of_none {σ : Type} (api : FitbitAPI σ) (sys : Sys σ) (t : Time)
    (data : InnerScanData) (hf : data.Fat = none) :
    fatStep api sys t data = ⟨none, sys, []⟩ := by
  unfold fatStep
  simp only [hf]

/-- C3: for a measurement with a weight and no body fat value, at a timestamp
for which `GetBodyWeightLog` returns an empty log, the loop body makes, after the
read, one `CreateWeightLog` call and no `CreateBodyFatLog` call; the call posts
one request to weight.json and records what the client answered. For a finite
weight and a timestamp with a year of four digits, the request carries `weight`
as the 2-decimal numeral of the nearest hundredths, `date` as `YYYY-MM-DD` and
`time` as `HH:MM:SS`. For the weight 65.50 at 2024-03-01T07:00:00 these are
`65.50`, `2024-03-01` and `07:00:00`. -/
theorem C3_weight_only_one_weight_write {σ : Type} (api : FitbitAPI σ) (sys : Sys σ)
    (t : Time) (data : InnerScanData) (w : Float64) (resp : GetWeightLogResponse)
    (hw : data.Weight = some w) (hf : data.Fat = none)
    (hget : (GetBodyWeightLog api sys t).res = .ok resp) (hempty : resp.Weight = []) :
    (loopBody api sys t data).calls =
        [.GetBodyWeightLog t (GetBodyWeightLog api sys t).http (.ok resp),
          .CreateWeightLog w t
            [⟨weightRequest w t,
              (api.Client (GetBodyWeightLog api sys t).sys.remote (weightRequest w t)).1⟩]
            (CreateWeightLog api (GetBodyWeightLog api sys t).sys w t).err] ∧
      (loopBody api sys t data).calls.countP Call.isWeightWrite = 1 ∧
      (loopBody api sys t data).calls.countP Call.isFatWrite = 0 ∧
      (∀ neg digits scale, w = .finite neg digits scale →
        t.Year < 10000 → t.Month < 100 → t.Day < 100 →
        t.Hour < 100 → t.Minute < 100 → t.Second < 100 →
        ∃ h, NearestHundredths digits scale h ∧
          weightRequest w t =
            ⟨"POST", "https://api.fitbit.com/1/user/-/body/log/weight.json",
              [("weight", twoDecimals neg h), ("date", YYYYMMDD t), ("time", HHMMSS t)]⟩) ∧
      weightRequest (.finite false 655 1) ⟨2024, 3, 1, 7, 0, 0⟩ =
        ⟨"POST", "https://api.fitbit.com/1/user/-/body/log/weight.json",
          [("weight", "65.50"), ("date", "2024-03-01"), ("time", "07:00:00")]⟩ := by
  have hb := loopBody_of_empty api sys t data resp hget hempty
  rw [weightStep_of_some api _ t data w hw] at hb
  have hcalls : (loopBody api sys t data).calls =
      [.GetBodyWeightLog t (GetBodyWeightLog api sys t).http (.ok resp),
        .CreateWeightLog w t (CreateWeightLog api (GetBodyWeightLog api sys t).sys w t).http
          (CreateWeightLog api (GetBodyWeightLog api sys t).sys w t).err] := by
    rw [hb]
    cases (CreateWeightLog api (GetBodyWeightLog api sys t).sys w t).err with
    | none => simp [fatStep_of_none api _ t data hf]
    | some e => simp
  refine ⟨?_, ?_, ?_, ?_, by decide⟩
  · rw [hcalls, CreateWeightLog_http]
  · rw [hcalls]
    simp [Call.isWeightWrite]
  · rw [hcalls]
    simp [Call.isFatWrite]
  · intro neg digits scale hfin hy hmo hd hh hmi hs
    obtain ⟨h, hn, hfmt⟩ := FormatFloat_finite neg digits scale
    refine ⟨h, hn, ?_⟩
    unfold weightRequest
    rw [hfin, hfmt, FormatDate_eq t hy hmo hd, FormatClock_eq t hh hmi hs]

theorem C3_weight_only_one_weight_write_witness :
    (GetBodyWeightLog service.api ⟨service.fresh 10, service.noEnv⟩ service.t1).res =
        .ok ⟨[]⟩ ∧
      (loopBody service.api ⟨service.fresh 10, service.noEnv⟩ service.t1
          ⟨some service.w6550, none⟩).calls =
        [.GetBodyWeightLog service.t1
            [⟨logRequest service.t1, .response 200 (some ⟨[]⟩)⟩] (.ok ⟨[]⟩),
          .CreateWeightLog service.w6550 service.t1
            [⟨⟨"POST", "https://api.fitbit.com/1/user/-/body/log/weight.json",
              [("weight", "65.50"), ("date", "2024-03-01"), ("time", "07:00:00")]⟩,
              .response 201 none⟩] none] ∧
      ∃ h, NearestHundredths 655 1 h ∧
        weightRequest service.w6550 service.t1 =
          ⟨"POST", "https://api.fitbit.com/1/user/-/body/log/weight.json",
            [("weight", twoDecimals false h), ("date", YYYYMMDD service.t1),
              ("time", HHMMSS service.t1)]⟩ :=
  ⟨rfl,
    (C3_weight_only_one_weight_write service.api ⟨service.fresh 10, service.noEnv⟩ service.t1
      ⟨some service.w6550, none⟩ service.w6550 ⟨[]⟩ rfl rfl rfl rfl).1,
    (C3_weight_only_one_weight_write service.api ⟨service.fresh 10, service.noEnv⟩ service.t1
      ⟨some service.w6550, none⟩ service.w6550 ⟨[]⟩ rfl rfl rfl rfl).2.2.2.1
      false 655 1 rfl (by decide) (by decide) (by decide) (by decide) (by decide) (by decide)⟩

/-! ## The loop -/

theorem syncLoop_cons_of_fatal {σ : Type} (api : FitbitAPI σ) (t : Time)
    (data : InnerScanData) (rest : List (Time × InnerScanData)) (sys : Sys σ)
    (e : String × Error) (h : (loopBody api sys t data).fatal = some e) :
    syncLoop api ((t, data) :: rest) sys =
      ⟨[(t, (loopBody api sys t data).calls)], some e, (loopBody api sys t data).sys⟩ := by
  simp only [syncLoop, h]

theorem syncLoop_cons_of_next {σ : Type} (api : FitbitAPI σ) (t : Time)
    (data : InnerScanData) (rest : List (Time × InnerScanData)) (sys : Sys σ)
    (h : (loopBody api sys t data).fatal = none) :
    syncLoop api ((t, data) :: rest) sys =
      ⟨(t, (loopBody api sys t data).calls) ::
          (syncLoop api rest (loopBody api sys t data).sys).log,
        (syncLoop api rest (loopBody api sys t data).sys).fatal,
        (syncLoop api rest (loopBody api sys t data).sys).sys⟩ := by
  simp only [syncLoop, h]

theorem syncLoop_append {σ : Type} (api : FitbitAPI σ) (pre rest : List (Time × InnerScanData))
    (sys : Sys σ) (h : (syncLoop api pre sys).fatal = none) :
    syncLoop api (pre ++ rest) sys =
      ⟨(syncLoop api pre sys).log ++ (syncLoop api rest (syncLoop api pre sys).sys).log,
        (syncLoop api rest (syncLoop api pre sys).sys).fatal,
        (syncLoop api rest (syncLoop api pre sys).sys).sys⟩ := by
  induction pre generalizing sys with
  | nil => simp [syncLoop]
  | cons p pre ih =>
    obtain ⟨t, data⟩ := p
    rw [List.cons_append]
    cases hb : (loopBody api sys t data).fatal with
    | some e =>
      rw [syncLoop_cons_of_fatal api t data pre sys e hb] at h
      simp at h
    | none =>
      rw [syncLoop_cons_of_next api t data pre sys hb] at h ⊢
      rw [syncLoop_cons_of_next api t data (pre ++ rest) sys hb, ih _ h]
      simp

end main

namespace main

open htf

/-! ## Which calls a pass makes, and where a run stops -/

theorem weightStep_cases {σ : Type} (api : FitbitAPI σ) (sys : Sys σ) (t : Time)
    (data : InnerScanData) :
    (data.Weight = none ∧ weightStep api sys t data = ⟨none, sys, []⟩) ∨
      ∃ w, data.Weight = some w ∧
        weightStep api sys t data =
          ⟨(CreateWeightLog api sys w t).err.map fun err => ("failed to create weight log", err),
            (CreateWeightLog api sys w t).sys,
            [.CreateWeightLog w t (CreateWeightLog api sys w t).http
              (CreateWeightLog api sys w t).err]⟩ := by
  cases hw : data.Weight with
  | none => exact Or.inl ⟨rfl, weightStep_of_none api sys t data hw⟩
  | some w => exact Or.inr ⟨w, rfl, weightStep_of_some api sys t data w hw⟩

theorem fatStep_cases {σ : Type} (api : FitbitAPI σ) (sys : Sys σ) (t : Time)
    (data : InnerScanData) :
    (data.Fat = none ∧ fatStep api sys t data = ⟨none, sys, []⟩) ∨
      ∃ f, data.Fat = some f ∧
        fatStep api sys t data =
          ⟨(CreateBodyFatLog api sys f t).err.map fun err => ("failed to create fat log", err),
            (CreateBodyFatLog api sys f t).sys,
            [.CreateBodyFatLog f t (CreateBodyFatLog api sys f t).http
              (CreateBodyFatLog api sys f t).err]⟩ := by
  cases hf : data.Fat with
  | none => exact Or.inl ⟨rfl, fatStep_of_none api sys t data hf⟩
  | some f => exact Or.inr ⟨f, rfl, fatStep_of_some api sys t data f hf⟩

/-- The calls of a pass: the read, then the writes of lines 58 to 68 when the
read gave an empty log. -/
theorem loopBody_calls {σ : Type} (api : FitbitAPI σ) (sys : Sys σ) (t : Time)
    (data : InnerScanData) :
    ∃ rest, (loopBody api sys t data).calls =
        .GetBodyWeightLog t (GetBodyWeightLog api sys t).http (GetBodyWeightLog api sys t).res ::
          rest ∧
      ∀ c ∈ rest,
        (∃ s w, c = .CreateWeightLog w t (CreateWeightLog api s w t).http
            (CreateWeightLog api s w t).err) ∨
          ∃ s f, c = .CreateBodyFatLog f t (CreateBodyFatLog api s f t).http
            (CreateBodyFatLog api s f t).err := by
  cases hg : (GetBodyWeightLog api sys t).res with
  | error e =>
    rw [loopBody_of_error api sys t data e hg]
    exact ⟨[], rfl, by simp⟩
  | ok resp =>
    by_cases he : resp.Weight = []
    · rw [loopBody_of_empty api sys t data resp hg he]
      have hws : ∀ c ∈ (weightStep api (GetBodyWeightLog api sys t).sys t data).calls,
          ∃ s w, c = .CreateWeightLog w t (CreateWeightLog api s w t).http
            (CreateWeightLog api s w t).err := by
        rcases weightStep_cases api (GetBodyWeightLog api sys t).sys t data with
          ⟨_, h⟩ | ⟨w, _, h⟩
        · rw [h]
          simp
        · rw [h]
          intro c hc
          exact ⟨_, w, List.mem_singleton.mp hc⟩
      have hfs : ∀ s0, ∀ c ∈ (fatStep api s0 t data).calls,
          ∃ s f, c = .CreateBodyFatLog f t (CreateBodyFatLog api s f t).http
            (CreateBodyFatLog api s f t).err := by
        intro s0
        rcases fatStep_cases api s0 t data with ⟨_, h⟩ | ⟨f, _, h⟩
        · rw [h]
          simp
        · rw [h]
          intro c hc
          exact ⟨_, f, List.mem_singleton.mp hc⟩
      cases hwf : (weightStep api (GetBodyWeightLog api sys t).sys t data).fatal with
      | some e => exact ⟨_, rfl, fun c hc => Or.inl (hws c hc)⟩
      | none =>
        refine ⟨_, rfl, fun c hc => ?_⟩
        rcases List.mem_append.mp hc with h | h
        · exact Or.inl (hws c h)
        · exact Or.inr (hfs _ c h)
    · rw [loopBody_of_found api sys t data resp hg he]
      exact ⟨[], rfl, by simp⟩

theorem weightStep_no_error {σ : Type} (api : FitbitAPI σ) (sys : Sys σ) (t : Time)
    (data : InnerScanData) (h : (weightStep api sys t data).fatal = none) :
    ∀ c ∈ (weightStep api sys t data).calls, c.err = none := by
  rcases weightStep_cases api sys t data with ⟨_, hs⟩ | ⟨w, _, hs⟩
  · rw [hs]
    simp
  · rw [hs] at h ⊢
    cases he : (CreateWeightLog api sys w t).err with
    | none => simp [Call.err, he]
    | some e => simp [he] at h

theorem fatStep_no_error {σ : Type} (api : FitbitAPI σ) (sys : Sys σ) (t : Time)
    (data : InnerScanData) (h : (fatStep api sys t data).fatal = none) :
    ∀ c ∈ (fatStep api sys t data).calls, c.err = none := by
  rcases fatStep_cases api sys t data with ⟨_, hs⟩ | ⟨f, _, hs⟩
  · rw [hs]
    simp
  · rw [hs] at h ⊢
    cases he : (CreateBodyFatLog api sys f t).err with
    | none => simp [Call.err, he]
    | some e => simp [he] at h

theorem stopsAtError_nil (fatal : Option (String × Error)) : StopsAtError [] fatal := by
  intro before c after e h
  simp at h

theorem stopsAtError_singleton (c : Call) (fatal : Option (String × Error))
    (h : ∀ e, c.err = some e → ∃ m, fatal = some (m, e)) : StopsAtError [c] fatal := by
  intro before c1 after e hl he
  cases before with
  | nil =>
    simp only [List.nil_append, List.cons.injEq] at hl
    obtain ⟨h1, h2⟩ := hl
    subst h1
    exact ⟨h2.symm, h e he⟩
  | cons b bs =>
    simp at hl

theorem stopsAtError_append (l1 l2 : List Call) (fatal : Option (String × Error))
    (h1 : ∀ c ∈ l1, c.err = none) (h2 : StopsAtError l2 fatal) :
    StopsAtError (l1 ++ l2) fatal := by
  induction l1 with
  | nil => simpa using h2
  | cons a l1 ih =>
    intro before c after e hl he
    cases before with
    | nil =>
      simp only [List.nil_append, List.cons_append, List.cons.injEq] at hl
      obtain ⟨hac, _⟩ := hl
      subst hac
      have := h1 a (List.mem_cons_self _ _)
      rw [this] at he
      cases he
    | cons b bs =>
      simp only [List.cons_append, List.cons.injEq] at hl
      exact ih (fun c hc => h1 c (List.mem_cons_of_mem _ hc)) bs c after e hl.2 he

theorem weightStep_stops {σ : Type} (api : FitbitAPI σ) (sys : Sys σ) (t : Time)
    (data : InnerScanData) :
    StopsAtError (weightStep api sys t data).calls (weightStep api sys t data).fatal := by
  rcases weightStep_cases api sys t data with ⟨_, hs⟩ | ⟨w, _, hs⟩
  · rw [hs]
    exact stopsAtError_nil _
  · rw [hs]
    apply stopsAtError_singleton
    intro e he
    simp only [Call.err] at he
    exact ⟨_, by rw [he]; rfl⟩

theorem fatStep_stops {σ : Type} (api : FitbitAPI σ) (sys : Sys σ) (t : Time)
    (data : InnerScanData) :
    StopsAtError (fatStep api sys t data).calls (fatStep api sys t data).fatal := by
  rcases fatStep_cases api sys t data with ⟨_, hs⟩ | ⟨f, _, hs⟩
  · rw [hs]
    exact stopsAtError_nil _
  · rw [hs]
    apply stopsAtError_singleton
    intro e he
    simp only [Call.err] at he
    exact ⟨_, by rw [he]; rfl⟩

end main

namespace main

open htf

theorem loopBody_no_error {σ : Type} (api : FitbitAPI σ) (sys : Sys σ) (t : Time)
    (data : InnerScanData) (h : (loopBody api sys t data).fatal = none) :
    ∀ c ∈ (loopBody api sys t data).calls, c.err = none := by
  cases hg : (GetBodyWeightLog api sys t).res with
  | error e =>
    rw [loopBody_of_error api sys t data e hg] at h
    simp at h
  | ok resp =>
    by_cases he : resp.Weight = []
    · rw [loopBody_of_empty api sys t data resp hg he] at h ⊢
      cases hwf : (weightStep api (GetBodyWeightLog api sys t).sys t data).fatal with
      | some e =>
        rw [hwf] at h
        simp at h
      | none =>
        rw [hwf] at h
        simp only at h ⊢
        intro c hc
        rcases List.mem_cons.mp hc with h0 | h0
        · rw [h0]
          rfl
        · rcases List.mem_append.mp h0 with h1 | h1
          · exact weightStep_no_error api _ t data hwf c h1
          · exact fatStep_no_error api _ t data h c h1
    · rw [loopBody_of_found api sys t data resp hg he]
      intro c hc
      rw [List.mem_singleton.mp hc]
      rfl

theorem loopBody_stops {σ : Type} (api : FitbitAPI σ) (sys : Sys σ) (t : Time)
    (data : InnerScanData) :
    StopsAtError (loopBody api sys t data).calls (loopBody api sys t data).fatal := by
  cases hg : (GetBodyWeightLog api sys t).res with
  | error e =>
    rw [loopBody_of_error api sys t data e hg]
    apply stopsAtError_singleton
    intro e1 he1
    simp only [Call.err, Option.some.injEq] at he1
    exact ⟨_, by rw [he1]⟩
  | ok resp =>
    by_cases he : resp.Weight = []
    · rw [loopBody_of_empty api sys t data resp hg he]
      have hG : ∀ c ∈ [Call.GetBodyWeightLog t (GetBodyWeightLog api sys t).http (.ok resp)],
          c.err = none := by
        intro c hc
        rw [List.mem_singleton.mp hc]
        rfl
      cases hwf : (weightStep api (GetBodyWeightLog api sys t).sys t data).fatal with
      | some e =>
        have h := weightStep_stops api (GetBodyWeightLog api sys t).sys t data
        rw [hwf] at h
        exact stopsAtError_append _ _ _ hG h
      | none =>
        have h1 := weightStep_no_error api (GetBodyWeightLog api sys t).sys t data hwf
        have h2 := fatStep_stops api
          (weightStep api (GetBodyWeightLog api sys t).sys t data).sys t data
        exact stopsAtError_append _ _ _ hG (stopsAtError_append _ _ _ h1 h2)
    · rw [loopBody_of_found api sys t data resp hg he]
      apply stopsAtError_singleton
      intro e1 he1
      simp [Call.err] at he1

theorem syncLoop_no_error {σ : Type} (api : FitbitAPI σ) (scanData : List (Time × InnerScanData))
    (sys : Sys σ) (h : (syncLoop api scanData sys).fatal = none) :
    ∀ c ∈ (syncLoop api scanData sys).calls, c.err = none := by
  induction scanData generalizing sys with
  | nil => simp [syncLoop, Run.calls]
  | cons p rest ih =>
    obtain ⟨t, data⟩ := p
    cases hb : (loopBody api sys t data).fatal with
    | some e =>
      rw [syncLoop_cons_of_fatal api t data rest sys e hb] at h
      simp at h
    | none =>
      rw [syncLoop_cons_of_next api t data rest sys hb] at h ⊢
      intro c hc
      simp only [Run.calls, List.flatMap_cons, List.mem_append] at hc
      rcases hc with h1 | h1
      · exact loopBody_no_error api sys t data hb c h1
      · exact ih _ h c h1

theorem syncLoop_stops {σ : Type} (api : FitbitAPI σ) (scanData : List (Time × InnerScanData))
    (sys : Sys σ) :
    StopsAtError (syncLoop api scanData sys).calls (syncLoop api scanData sys).fatal := by
  induction scanData generalizing sys with
  | nil => exact stopsAtError_nil _
  | cons p rest ih =>
    obtain ⟨t, data⟩ := p
    cases hb : (loopBody api sys t data).fatal with
    | some e =>
      rw [syncLoop_cons_of_fatal api t data rest sys e hb]
      have h := loopBody_stops api sys t data
      rw [hb] at h
      simpa [Run.calls] using h
    | none =>
      rw [syncLoop_cons_of_next api t data rest sys hb]
      have h := stopsAtError_append _ _ _ (loopBody_no_error api sys t data hb) (ih
        (loopBody api sys t data).sys)
      simpa [Run.calls] using h

/-- Every entry of the log of a run is a pass of the loop body on a pair of the
dataset. -/
theorem mem_log {σ : Type} (api : FitbitAPI σ) (scanData : List (Time × InnerScanData))
    (sys : Sys σ) (t : Time) (calls : List Call)
    (h : (t, calls) ∈ (syncLoop api scanData sys).log) :
    ∃ sys1 data, (t, data) ∈ scanData ∧ calls = (loopBody api sys1 t data).calls := by
  induction scanData generalizing sys with
  | nil => simp [syncLoop] at h
  | cons p rest ih =>
    obtain ⟨t0, data0⟩ := p
    cases hb : (loopBody api sys t0 data0).fatal with
    | some e =>
      rw [syncLoop_cons_of_fatal api t0 data0 rest sys e hb] at h
      simp only [List.mem_singleton, Prod.mk.injEq] at h
      obtain ⟨h1, h2⟩ := h
      subst h1
      exact ⟨sys, data0, List.mem_cons_self _ _, h2⟩
    | none =>
      rw [syncLoop_cons_of_next api t0 data0 rest sys hb] at h
      simp only [List.mem_cons, Prod.mk.injEq] at h
      rcases h with ⟨h1, h2⟩ | h
      · subst h1
        exact ⟨sys, data0, List.mem_cons_self _ _, h2⟩
      · obtain ⟨sys1, data, hm, hc⟩ := ih _ h
        exact ⟨sys1, data, List.mem_cons_of_mem _ hm, hc⟩

/-- The keys in the log of a run are the keys of the dataset up to where the
run ended. -/
theorem log_keys {σ : Type} (api : FitbitAPI σ) (scanData : List (Time × InnerScanData))
    (sys : Sys σ) :
    (syncLoop api scanData sys).log.map Prod.fst <+: scanData.map Prod.fst := by
  induction scanData generalizing sys with
  | nil => simp [syncLoop]
  | cons p rest ih =>
    obtain ⟨t, data⟩ := p
    cases hb : (loopBody api sys t data).fatal with
    | some e =>
      rw [syncLoop_cons_of_fatal api t data rest sys e hb]
      simp only [List.map_cons, List.map_nil]
      exact ⟨rest.map Prod.fst, rfl⟩
    | none =>
      rw [syncLoop_cons_of_next api t data rest sys hb]
      simp only [List.map_cons]
      obtain ⟨l, hl⟩ := ih (loopBody api sys t data).sys
      exact ⟨l, by simp [hl]⟩

/-- C1: in a run of the loop over any dataset, when the read made for a
timestamp returned a response whose `Weight` is not empty, that read is the
only call made for the timestamp: no `CreateWeightLog` and no
`CreateBodyFatLog`, whatever the measurement holds. -/
theorem C1_no_write_when_log_found {σ : Type} (api : FitbitAPI σ)
    (scanData : List (Time × InnerScanData)) (sys : Sys σ) (t : Time) (calls : List Call)
    (d : Time) (http : List Exchange) (resp : GetWeightLogResponse)
    (hlog : (t, calls) ∈ (syncLoop api scanData sys).log)
    (hread : Call.GetBodyWeightLog d http (.ok resp) ∈ calls)
    (hfound : resp.Weight ≠ []) :
    calls = [.GetBodyWeightLog t http (.ok resp)] ∧
      ∀ c ∈ calls, c.isWeightWrite = false ∧ c.isFatWrite = false := by
  obtain ⟨sys1, data, _, hc⟩ := mem_log api scanData sys t calls hlog
  obtain ⟨rest, hrest, hw⟩ := loopBody_calls api sys1 t data
  have hG : Call.GetBodyWeightLog d http (.ok resp) =
      .GetBodyWeightLog t (GetBodyWeightLog api sys1 t).http (GetBodyWeightLog api sys1 t).res := by
    rw [hc, hrest] at hread
    rcases List.mem_cons.mp hread with h | h
    · exact h
    · rcases hw _ h with ⟨s, w, h1⟩ | ⟨s, f, h1⟩ <;> cases h1
  simp only [Call.GetBodyWeightLog.injEq] at hG
  obtain ⟨_, h2, h3⟩ := hG
  have hb := loopBody_of_found api sys1 t data resp h3.symm hfound
  have hcalls : calls = [.GetBodyWeightLog t http (.ok resp)] := by
    rw [hc, hb, h2]
  refine ⟨hcalls, ?_⟩
  intro c hcm
  rw [hcalls] at hcm
  rw [List.mem_singleton.mp hcm]
  exact ⟨rfl, rfl⟩

end main

namespace main

open htf

theorem C1_no_write_when_log_found_witness :
    (service.t1,
        [Call.GetBodyWeightLog service.t1
          (GetBodyWeightLog service.api ⟨service.used 10, service.noEnv⟩ service.t1).http
          (.ok ⟨(service.used 10).weight⟩)]) ∈
        (syncLoop service.api [(service.t1, ⟨some service.w6550, some service.f2025⟩)]
          ⟨service.used 10, service.noEnv⟩).log ∧
      (service.used 10).weight ≠ [] ∧
      ([Call.GetBodyWeightLog service.t1
          (GetBodyWeightLog service.api ⟨service.used 10, service.noEnv⟩ service.t1).http
          (.ok ⟨(service.used 10).weight⟩)] =
        [.GetBodyWeightLog service.t1
          (GetBodyWeightLog service.api ⟨service.used 10, service.noEnv⟩ service.t1).http
          (.ok ⟨(service.used 10).weight⟩)] ∧
        ∀ c ∈ [Call.GetBodyWeightLog service.t1
            (GetBodyWeightLog service.api ⟨service.used 10, service.noEnv⟩ service.t1).http
            (.ok ⟨(service.used 10).weight⟩)],
          c.isWeightWrite = false ∧ c.isFatWrite = false) :=
  ⟨List.mem_singleton.mpr rfl, by decide,
    C1_no_write_when_log_found service.api
      [(service.t1, ⟨some service.w6550, some service.f2025⟩)] ⟨service.used 10, service.noEnv⟩
      service.t1 _ service.t1 _ ⟨(service.used 10).weight⟩
      (List.mem_singleton.mpr rfl) (List.mem_singleton.mpr rfl) (by decide)⟩

theorem log_entry_ne_nil {σ : Type} (api : FitbitAPI σ)
    (scanData : List (Time × InnerScanData)) (sys : Sys σ) (p : Time × List Call)
    (h : p ∈ (syncLoop api scanData sys).log) : p.2 ≠ [] := by
  obtain ⟨t, calls⟩ := p
  obtain ⟨sys1, data, _, hc⟩ := mem_log api scanData sys t calls h
  obtain ⟨rest, hrest, _⟩ := loopBody_calls api sys1 t data
  simp [hc, hrest]

/-- C5: in a run of the loop over any dataset, a `CreateWeightLog` or
`CreateBodyFatLog` call that was answered with status 429 returned an error that
carries 429, and it is the last call of the run: no call follows it for its
timestamp, no later timestamp has an entry in the log, and the run ended in the
`log.Fatalf` for that error. The timestamps of the log are the first ones of the
dataset, in its order. -/
theorem C5_write_429_ends_run {σ : Type} (api : FitbitAPI σ)
    (scanData : List (Time × InnerScanData)) (sys : Sys σ)
    (pre post : List (Time × List Call)) (t : Time) (before after : List Call) (c : Call)
    (req : Request) (body : Option GetWeightLogResponse)
    (hlog : (syncLoop api scanData sys).log = pre ++ (t, before ++ c :: after) :: post)
    (hwrite : c.isWrite = true)
    (h429 : c.http = [⟨req, .response 429 body⟩]) :
    (∃ msg, c.err = some (.status msg 429)) ∧ after = [] ∧ post = [] ∧
      (∃ m msg, (syncLoop api scanData sys).fatal = some (m, .status msg 429)) ∧
      (syncLoop api scanData sys).log.map Prod.fst <+: scanData.map Prod.fst := by
  have hmem : (t, before ++ c :: after) ∈ (syncLoop api scanData sys).log := by
    rw [hlog]
    simp
  obtain ⟨sys1, data, _, hc⟩ := mem_log api scanData sys t _ hmem
  obtain ⟨rest, hrest, hw⟩ := loopBody_calls api sys1 t data
  have hcm : c ∈ (loopBody api sys1 t data).calls := by
    rw [← hc]
    simp
  have herr : ∃ msg, c.err = some (.status msg 429) := by
    rw [hrest] at hcm
    rcases List.mem_cons.mp hcm with h | h
    · rw [h] at hwrite
      simp [Call.isWrite, Call.isWeightWrite, Call.isFatWrite] at hwrite
    · rcases hw c h with ⟨s, w, h1⟩ | ⟨s, f, h1⟩
      · rw [h1] at h429 ⊢
        exact ⟨_, CreateWeightLog_status_of_429 api s w t req body h429⟩
      · rw [h1] at h429 ⊢
        exact ⟨_, CreateBodyFatLog_status_of_429 api s f t req body h429⟩
  obtain ⟨msg, hmsg⟩ := herr
  have hcalls : (syncLoop api scanData sys).calls =
      ((pre.flatMap fun p => p.2) ++ before) ++ c :: (after ++ post.flatMap fun p => p.2) := by
    simp [Run.calls, hlog, List.flatMap_append, List.flatMap_cons]
  obtain ⟨hnil, m, hfatal⟩ := syncLoop_stops api scanData sys _ c _ _ hcalls hmsg
  obtain ⟨hafter, hpost⟩ := List.append_eq_nil.mp hnil
  have hpost1 : post = [] := by
    cases post with
    | nil => rfl
    | cons p ps =>
      exfalso
      have hp : p ∈ (syncLoop api scanData sys).log := by
        rw [hlog]
        simp
      have h1 := log_entry_ne_nil api scanData sys p hp
      simp only [List.flatMap_cons, List.append_eq_nil] at hpost
      exact h1 hpost.1
  exact ⟨⟨msg, hmsg⟩, hafter, hpost1, ⟨m, msg, hfatal⟩, log_keys api scanData sys⟩

theorem C5_write_429_ends_run_witness :
    (syncLoop service.api
          [(service.t1, ⟨some service.w6550, some service.f2025⟩),
            (service.t2, ⟨some service.w6550, none⟩)] ⟨service.fresh 2, service.noEnv⟩).log =
        [] ++ (service.t1,
          [.GetBodyWeightLog service.t1
              [⟨logRequest service.t1, .response 200 (some ⟨[]⟩)⟩] (.ok ⟨[]⟩),
            .CreateWeightLog service.w6550 service.t1
              [⟨weightRequest service.w6550 service.t1, .response 201 none⟩] none] ++
          Call.CreateBodyFatLog service.f2025 service.t1
              [⟨fatRequest service.f2025 service.t1, .response 429 none⟩]
              (some (.status "failed to create fat log in fitbit(invalid status code)" 429)) ::
            []) :: [] ∧
      ((∃ msg, (Call.CreateBodyFatLog service.f2025 service.t1
            [⟨fatRequest service.f2025 service.t1, .response 429 none⟩]
            (some (.status "failed to create fat log in fitbit(invalid status code)" 429))).err =
          some (.status msg 429)) ∧
        ([] : List Call) = [] ∧ ([] : List (Time × List Call)) = [] ∧
        (∃ m msg, (syncLoop service.api
            [(service.t1, ⟨some service.w6550, some service.f2025⟩),
              (service.t2, ⟨some service.w6550, none⟩)] ⟨service.fresh 2, service.noEnv⟩).fatal =
          some (m, .status msg 429)) ∧
        (syncLoop service.api
            [(service.t1, ⟨some service.w6550, some service.f2025⟩),
              (service.t2, ⟨some service.w6550, none⟩)] ⟨service.fresh 2, service.noEnv⟩).log.map
          Prod.fst <+:
          [(service.t1, (⟨some service.w6550, some service.f2025⟩ : InnerScanData)),
            (service.t2, ⟨some service.w6550, none⟩)].map Prod.fst) :=
  ⟨rfl, C5_write_429_ends_run service.api
    [(service.t1, ⟨some service.w6550, some service.f2025⟩),
      (service.t2, ⟨some service.w6550, none⟩)] ⟨service.fresh 2, service.noEnv⟩ [] [] service.t1
    [.GetBodyWeightLog service.t1 [⟨logRequest service.t1, .response 200 (some ⟨[]⟩)⟩] (.ok ⟨[]⟩),
      .CreateWeightLog service.w6550 service.t1
        [⟨weightRequest service.w6550 service.t1, .response 201 none⟩] none]
    [] _ (fatRequest service.f2025 service.t1) none rfl rfl rfl⟩

/-- C9, as the code has it: for a measurement with a weight, with or without a
body fat value, at a timestamp for which the read returned an empty log, an
error of the `CreateWeightLog` call ends the run at once with the `log.Fatalf`
of line 60: the calls for the timestamp are the read and the weight write, and
no `CreateBodyFatLog` is made for it, nor any call for a later timestamp. -/
theorem C9_weight_error_ends_run {σ : Type} (api : FitbitAPI σ)
    (pre rest : List (Time × InnerScanData)) (sys : Sys σ) (t : Time) (data : InnerScanData)
    (w : Float64) (resp : GetWeightLogResponse) (e : Error)
    (hpre : (syncLoop api pre sys).fatal = none)
    (hw : data.Weight = some w)
    (hget : (GetBodyWeightLog api (syncLoop api pre sys).sys t).res = .ok resp)
    (hempty : resp.Weight = [])
    (herr : (CreateWeightLog api (GetBodyWeightLog api (syncLoop api pre sys).sys t).sys
      w t).err = some e) :
    (syncLoop api (pre ++ (t, data) :: rest) sys).log =
        (syncLoop api pre sys).log ++
          [(t, [.GetBodyWeightLog t (GetBodyWeightLog api (syncLoop api pre sys).sys t).http
              (.ok resp),
            .CreateWeightLog w t
              (CreateWeightLog api (GetBodyWeightLog api (syncLoop api pre sys).sys t).sys
                w t).http (some e)])] ∧
      (syncLoop api (pre ++ (t, data) :: rest) sys).fatal =
        some ("failed to create weight log", e) ∧
      ∀ c ∈ (loopBody api (syncLoop api pre sys).sys t data).calls, c.isFatWrite = false := by
  have hb := loopBody_of_empty api (syncLoop api pre sys).sys t data resp hget hempty
  rw [weightStep_of_some api _ t data w hw] at hb
  simp only [herr, Option.map_some'] at hb
  have hfatal : (loopBody api (syncLoop api pre sys).sys t data).fatal =
      some ("failed to create weight log", e) := by
    rw [hb]
  rw [syncLoop_append api pre _ sys hpre,
    syncLoop_cons_of_fatal api t data rest _ _ hfatal, hb]
  refine ⟨rfl, rfl, ?_⟩
  intro c hc
  simp only [List.mem_cons, List.mem_singleton, List.not_mem_nil, or_false] at hc
  rcases hc with h | h <;> rw [h] <;> rfl

theorem C9_weight_error_ends_run_witness :
    (syncLoop service.api [(service.t2, ⟨none, none⟩)] ⟨service.fresh 2, service.noEnv⟩).fatal = none ∧
      (GetBodyWeightLog service.api
        (syncLoop service.api [(service.t2, ⟨none, none⟩)] ⟨service.fresh 2, service.noEnv⟩).sys
        service.t1).res = .ok ⟨[]⟩ ∧
      (CreateWeightLog service.api
        (GetBodyWeightLog service.api
          (syncLoop service.api [(service.t2, ⟨none, none⟩)] ⟨service.fresh 2, service.noEnv⟩).sys
          service.t1).sys service.w6550 service.t1).err =
        some (.status "failed to create weight log in fitbit(invalid status code)" 429) ∧
      (syncLoop service.api
          ([(service.t2, ⟨none, none⟩)] ++
            (service.t1, ⟨some service.w6550, some service.f2025⟩) ::
              [(service.t2, ⟨some service.w6550, none⟩)])
          ⟨service.fresh 2, service.noEnv⟩).fatal =
        some ("failed to create weight log",
          .status "failed to create weight log in fitbit(invalid status code)" 429) :=
  ⟨rfl, rfl, rfl,
    (C9_weight_error_ends_run service.api [(service.t2, ⟨none, none⟩)]
      [(service.t2, ⟨some service.w6550, none⟩)] ⟨service.fresh 2, service.noEnv⟩ service.t1
      ⟨some service.w6550, some service.f2025⟩ service.w6550 ⟨[]⟩
      (.status "failed to create weight log in fitbit(invalid status code)" 429)
      rfl rfl rfl rfl rfl).2.1⟩

/-- C9 fails as stated: against a service that answers the weight write with
429, for a measurement with both values at a timestamp with an empty log, the
`CreateWeightLog` call fails and the run makes no `CreateBodyFatLog` call. -/
theorem C9_fat_write_not_attempted :
    (GetBodyWeightLog service.api ⟨service.fresh 1, service.noEnv⟩ service.t1).res = .ok ⟨[]⟩ ∧
      (CreateWeightLog service.api
        (GetBodyWeightLog service.api ⟨service.fresh 1, service.noEnv⟩ service.t1).sys
        service.w6550 service.t1).err =
        some (.status "failed to create weight log in fitbit(invalid status code)" 429) ∧
      (syncLoop service.api [(service.t1, ⟨some service.w6550, some service.f2025⟩)]
        ⟨service.fresh 1, service.noEnv⟩).calls.countP Call.isFatWrite = 0 ∧
      (syncLoop service.api [(service.t1, ⟨some service.w6550, some service.f2025⟩)]
        ⟨service.fresh 1, service.noEnv⟩).fatal =
        some ("failed to create weight log",
          .status "failed to create weight log in fitbit(invalid status code)" 429) :=
  ⟨rfl, rfl, rfl, rfl⟩

end main

namespace service

open htf main

/-! ## The service keeps what the loop relies on -/

theorem postWeight_keeps (s : State) (q : Values) (e : WeightEntry) (h : e ∈ s.weight) :
    e ∈ (postWeight s q).2.weight := by
  unfold postWeight
  split
  · split
    · simp [h]
    · exact h
  · exact h

theorem postFat_weight (s : State) (q : Values) : (postFat s q).2.weight = s.weight := by
  unfold postFat
  split
  · split <;> rfl
  · rfl

theorem serve_keeps (s : State) (req : Request) (e : WeightEntry) (h : e ∈ s.weight) :
    e ∈ (serve s req).2.weight := by
  unfold serve
  split
  · exact h
  · split_ifs
    · exact h
    · exact postWeight_keeps _ _ e h
    · rw [postFat_weight]
      exact h
    · exact h

theorem logURL_injective (a b : String) (h : logURL a = logURL b) : a = b := by
  unfold logURL at h
  have h1 := congrArg String.data h
  simp only [String.data_append, List.append_assoc] at h1
  have h2 := List.append_cancel_left h1
  have h3 := List.append_cancel_right h2
  exact String.ext h3

theorem serve_read (s : State) (t : Time) (code : Int) (body : GetWeightLogResponse)
    (h : (serve s (logRequest t)).1 = .response code (some body)) :
    body.Weight = s.weight.filter (fun e => logURL e.Date = logURL t.FormatDate) ∧
      (serve s (logRequest t)).2.weight = s.weight := by
  unfold serve at h ⊢
  split at h
  · simp at h
  · simp only [logRequest, if_true] at h
    simp only [Reply.response.injEq, Option.some.injEq] at h
    simp only [logRequest, if_true]
    exact ⟨by rw [← h.2], trivial⟩

theorem serve_write (s : State) (w : Float64) (t : Time) (code : Int)
    (body : Option GetWeightLogResponse)
    (h : (serve s (weightRequest w t)).1 = .response code body)
    (hc : invalidStatus code = false) :
    ∃ e ∈ (serve s (weightRequest w t)).2.weight, e.Date = t.FormatDate := by
  unfold serve at h ⊢
  split at h
  · simp only [Reply.response.injEq] at h
    rw [← h.1] at hc
    exact absurd hc (by decide)
  · have hm : ¬ ((weightRequest w t).Method = "GET") := by
      show ¬ ("POST" = "GET")
      decide
    have hu : (weightRequest w t).URL =
        "https://api.fitbit.com/1/user/-/body/log/weight.json" := rfl
    simp only [hm, hu, if_false, if_true] at h ⊢
    have hq1 : (weightRequest w t).Query.lookup "weight" = some (FormatFloat w) := by
      simp [weightRequest, List.lookup]
    have hq2 : (weightRequest w t).Query.lookup "date" = some t.FormatDate := by
      simp [weightRequest, List.lookup]
    have hq3 : (weightRequest w t).Query.lookup "time" = some t.FormatClock := by
      simp [weightRequest, List.lookup]
    unfold postWeight at h ⊢
    simp only [hq1, hq2, hq3] at h ⊢
    cases hp : parseDecimal (FormatFloat w) with
    | none =>
      simp only [hp, Reply.response.injEq] at h
      rw [← h.1] at hc
      exact absurd hc (by decide)
    | some x =>
      simp only [hp]
      exact ⟨_, List.mem_append_right _ (List.mem_singleton.mpr rfl), rfl⟩

/-- The service is an environment of the kind `Lawful` asks for. -/
theorem lawful : Lawful api Logged where
  token_keeps := fun _ _ h => h
  client_keeps := by
    intro s req d h
    obtain ⟨e, he, hd⟩ := h
    exact ⟨e, serve_keeps s req e he, hd⟩
  read_sound := by
    intro s t code body h _ hne
    obtain ⟨hb, hw⟩ := serve_read s t code body h
    obtain ⟨e, he⟩ := List.exists_mem_of_ne_nil _ hne
    rw [hb, List.mem_filter] at he
    refine ⟨e, ?_, logURL_injective _ _ (by simpa using he.2)⟩
    show e ∈ (serve s (logRequest t)).2.weight
    rw [hw]
    exact he.1
  read_complete := by
    intro s t code body hl h _
    obtain ⟨hb, _⟩ := serve_read s t code body h
    obtain ⟨e, he, hd⟩ := hl
    have : e ∈ body.Weight := by
      rw [hb, List.mem_filter]
      exact ⟨he, by simp [hd]⟩
    exact List.ne_nil_of_mem this
  write_shows := by
    intro s w t code body h hc
    exact serve_write s w t code body h hc

end service

namespace htf

theorem GetBodyWeightLog_ok {σ : Type} (api : FitbitAPI σ) (sys : Sys σ) (date : Time)
    (resp : GetWeightLogResponse) (h : (GetBodyWeightLog api sys date).res = .ok resp) :
    ∃ code, (api.Client (api.TokenSource sys.remote).2 (logRequest date)).1 =
        .response code (some resp) ∧ invalidStatus code = false := by
  cases htk : (api.TokenSource sys.remote).1 with
  | none => simp [GetBodyWeightLog, htk] at h
  | some token =>
    cases hr : (api.Client (api.TokenSource sys.remote).2 (logRequest date)).1 with
    | failed => simp [GetBodyWeightLog, htk, hr] at h
    | response code body =>
      cases hc : invalidStatus code with
      | true => simp [GetBodyWeightLog, htk, hr, hc] at h
      | false =>
        cases body with
        | none => simp [GetBodyWeightLog, htk, hr, hc] at h
        | some b =>
          simp [GetBodyWeightLog, htk, hr, hc] at h
          exact ⟨code, by rw [h], hc⟩

theorem GetBodyWeightLog_remote {σ : Type} (api : FitbitAPI σ) (sys : Sys σ) (date : Time) :
    (GetBodyWeightLog api sys date).sys.remote = (api.TokenSource sys.remote).2 ∨
      (GetBodyWeightLog api sys date).sys.remote =
        (api.Client (api.TokenSource sys.remote).2 (logRequest date)).2 := by
  cases htk : (api.TokenSource sys.remote).1 with
  | none => exact Or.inl (by simp [GetBodyWeightLog, htk])
  | some token =>
    right
    cases hr : (api.Client (api.TokenSource sys.remote).2 (logRequest date)).1 with
    | failed => simp [GetBodyWeightLog, htk, hr]
    | response code body =>
      cases hc : invalidStatus code <;> cases body <;> simp [GetBodyWeightLog, htk, hr, hc]

theorem GetBodyWeightLog_remote_of_ok {σ : Type} (api : FitbitAPI σ) (sys : Sys σ) (date : Time)
    (resp : GetWeightLogResponse) (h : (GetBodyWeightLog api sys date).res = .ok resp) :
    (GetBodyWeightLog api sys date).sys.remote =
      (api.Client (api.TokenSource sys.remote).2 (logRequest date)).2 := by
  cases htk : (api.TokenSource sys.remote).1 with
  | none => simp [GetBodyWeightLog, htk] at h
  | some token =>
    cases hr : (api.Client (api.TokenSource sys.remote).2 (logRequest date)).1 with
    | failed => simp [GetBodyWeightLog, htk, hr]
    | response code body =>
      cases hc : invalidStatus code <;> cases body <;> simp [GetBodyWeightLog, htk, hr, hc]

theorem CreateWeightLog_ok {σ : Type} (api : FitbitAPI σ) (sys : Sys σ) (x : Float64)
    (t : Time) (h : (CreateWeightLog api sys x t).err = none) :
    ∃ code body, (api.Client sys.remote (weightRequest x t)).1 = .response code body ∧
      invalidStatus code = false := by
  cases hr : (api.Client sys.remote (weightRequest x t)).1 with
  | failed => simp [CreateWeightLog, hr] at h
  | response code body =>
    rw [CreateWeightLog_err_of_response api sys x t code body hr] at h
    cases hc : invalidStatus code with
    | true => simp [hc] at h
    | false => exact ⟨code, body, rfl, hc⟩

end htf

namespace main

open htf

/-! ## A second run over the same dataset -/

theorem read_keeps {σ : Type} {api : FitbitAPI σ} {Logged : σ → String → Prop}
    (hlaw : Lawful api Logged) (sys : Sys σ) (t : Time) (d : String)
    (h : Logged sys.remote d) : Logged (GetBodyWeightLog api sys t).sys.remote d := by
  rcases GetBodyWeightLog_remote api sys t with h1 | h1 <;> rw [h1]
  · exact hlaw.token_keeps _ _ h
  · exact hlaw.client_keeps _ _ _ (hlaw.token_keeps _ _ h)

theorem weightStep_keeps {σ : Type} {api : FitbitAPI σ} {Logged : σ → String → Prop}
    (hlaw : Lawful api Logged) (sys : Sys σ) (t : Time) (data : InnerScanData) (d : String)
    (h : Logged sys.remote d) : Logged (weightStep api sys t data).sys.remote d := by
  rcases weightStep_cases api sys t data with ⟨_, hs⟩ | ⟨w, _, hs⟩ <;> rw [hs]
  · exact h
  · simp only [CreateWeightLog_remote]
    exact hlaw.client_keeps _ _ _ h

theorem fatStep_keeps {σ : Type} {api : FitbitAPI σ} {Logged : σ → String → Prop}
    (hlaw : Lawful api Logged) (sys : Sys σ) (t : Time) (data : InnerScanData) (d : String)
    (h : Logged sys.remote d) : Logged (fatStep api sys t data).sys.remote d := by
  rcases fatStep_cases api sys t data with ⟨_, hs⟩ | ⟨f, _, hs⟩ <;> rw [hs]
  · exact h
  · simp only [CreateBodyFatLog_remote]
    exact hlaw.client_keeps _ _ _ h

theorem loopBody_keeps {σ : Type} {api : FitbitAPI σ} {Logged : σ → String → Prop}
    (hlaw : Lawful api Logged) (sys : Sys σ) (t : Time) (data : InnerScanData) (d : String)
    (h : Logged sys.remote d) : Logged (loopBody api sys t data).sys.remote d := by
  have hg := read_keeps hlaw sys t d h
  cases hres : (GetBodyWeightLog api sys t).res with
  | error e =>
    rw [loopBody_of_error api sys t data e hres]
    exact hg
  | ok resp =>
    by_cases he : resp.Weight = []
    · rw [loopBody_of_empty api sys t data resp hres he]
      have hw := weightStep_keeps hlaw _ t data d hg
      cases hwf : (weightStep api (GetBodyWeightLog api sys t).sys t data).fatal with
      | some e => exact hw
      | none => exact fatStep_keeps hlaw _ t data d hw
    · rw [loopBody_of_found api sys t data resp hres he]
      exact hg

theorem syncLoop_keeps {σ : Type} {api : FitbitAPI σ} {Logged : σ → String → Prop}
    (hlaw : Lawful api Logged) (scanData : List (Time × InnerScanData)) (sys : Sys σ)
    (d : String) (h : Logged sys.remote d) :
    Logged (syncLoop api scanData sys).sys.remote d := by
  induction scanData generalizing sys with
  | nil => exact h
  | cons p rest ih =>
    obtain ⟨t, data⟩ := p
    have hb := loopBody_keeps hlaw sys t data d h
    cases hf : (loopBody api sys t data).fatal with
    | some e =>
      rw [syncLoop_cons_of_fatal api t data rest sys e hf]
      exact hb
    | none =>
      rw [syncLoop_cons_of_next api t data rest sys hf]
      exact ih _ hb

/-- After a pass that did not end the run, a timestamp whose measurement has a
weight shows in the weight log. -/
theorem loopBody_shows {σ : Type} {api : FitbitAPI σ} {Logged : σ → String → Prop}
    (hlaw : Lawful api Logged) (sys : Sys σ) (t : Time) (data : InnerScanData)
    (hw : data.Weight ≠ none) (h : (loopBody api sys t data).fatal = none) :
    Logged (loopBody api sys t data).sys.remote t.FormatDate := by
  cases hres : (GetBodyWeightLog api sys t).res with
  | error e =>
    rw [loopBody_of_error api sys t data e hres] at h
    simp at h
  | ok resp =>
    obtain ⟨code, hreply, hcode⟩ := GetBodyWeightLog_ok api sys t resp hres
    by_cases he : resp.Weight = []
    · rw [loopBody_of_empty api sys t data resp hres he] at h ⊢
      rcases weightStep_cases api (GetBodyWeightLog api sys t).sys t data with
        ⟨hn, _⟩ | ⟨w, _, hs⟩
      · exact absurd hn hw
      · cases herr : (CreateWeightLog api (GetBodyWeightLog api sys t).sys w t).err with
        | some e =>
          rw [hs] at h
          simp [herr] at h
        | none =>
          obtain ⟨c, b, hr, hc⟩ := CreateWeightLog_ok api _ w t herr
          have hshown := hlaw.write_shows _ w t c b hr hc
          have hwf : (weightStep api (GetBodyWeightLog api sys t).sys t data).fatal = none := by
            rw [hs]
            simp [herr]
          have hws : (weightStep api (GetBodyWeightLog api sys t).sys t data).sys.remote =
              (api.Client (GetBodyWeightLog api sys t).sys.remote (weightRequest w t)).2 := by
            rw [hs]
            exact CreateWeightLog_remote api _ w t
          rw [hwf]
          apply fatStep_keeps hlaw
          rw [hws]
          exact hshown
    · rw [loopBody_of_found api sys t data resp hres he]
      show Logged (GetBodyWeightLog api sys t).sys.remote t.FormatDate
      rw [GetBodyWeightLog_remote_of_ok api sys t resp hres]
      exact hlaw.read_sound _ t code resp hreply hcode he

theorem syncLoop_shows {σ : Type} {api : FitbitAPI σ} {Logged : σ → String → Prop}
    (hlaw : Lawful api Logged) (scanData : List (Time × InnerScanData)) (sys : Sys σ)
    (h : (syncLoop api scanData sys).fatal = none) (t : Time) (data : InnerScanData)
    (hmem : (t, data) ∈ scanData) (hw : data.Weight ≠ none) :
    Logged (syncLoop api scanData sys).sys.remote t.FormatDate := by
  induction scanData generalizing sys with
  | nil => simp at hmem
  | cons p rest ih =>
    obtain ⟨t0, data0⟩ := p
    cases hf : (loopBody api sys t0 data0).fatal with
    | some e =>
      rw [syncLoop_cons_of_fatal api t0 data0 rest sys e hf] at h
      simp at h
    | none =>
      rw [syncLoop_cons_of_next api t0 data0 rest sys hf] at h ⊢
      rcases List.mem_cons.mp hmem with h0 | h0
      · simp only [Prod.mk.injEq] at h0
        obtain ⟨h1, h2⟩ := h0
        subst h1 h2
        exact syncLoop_keeps hlaw rest _ _ (loopBody_shows hlaw sys t data hw hf)
      · exact ih _ h h0

/-- A pass for a timestamp that shows in the weight log, or for a measurement
with neither value, makes no write. -/
theorem loopBody_quiet {σ : Type} {api : FitbitAPI σ} {Logged : σ → String → Prop}
    (hlaw : Lawful api Logged) (sys : Sys σ) (t : Time) (data : InnerScanData)
    (h : (data.Weight = none ∧ data.Fat = none) ∨ Logged sys.remote t.FormatDate) :
    (loopBody api sys t data).calls.countP Call.isWrite = 0 := by
  cases hres : (GetBodyWeightLog api sys t).res with
  | error e =>
    rw [loopBody_of_error api sys t data e hres]
    rfl
  | ok resp =>
    by_cases he : resp.Weight = []
    · rcases h with ⟨h1, h2⟩ | h
      · rw [loopBody_of_empty api sys t data resp hres he,
          weightStep_of_none api _ t data h1, fatStep_of_none api _ t data h2]
        rfl
      · exfalso
        obtain ⟨code, hreply, hcode⟩ := GetBodyWeightLog_ok api sys t resp hres
        exact hlaw.read_complete _ t code resp (hlaw.token_keeps _ _ h) hreply hcode he
    · rw [loopBody_of_found api sys t data resp hres he]
      rfl

theorem syncLoop_quiet {σ : Type} {api : FitbitAPI σ} {Logged : σ → String → Prop}
    (hlaw : Lawful api Logged) (scanData : List (Time × InnerScanData)) (sys : Sys σ)
    (h : ∀ t data, (t, data) ∈ scanData →
      (data.Weight = none ∧ data.Fat = none) ∨ Logged sys.remote t.FormatDate) :
    (syncLoop api scanData sys).writes = 0 := by
  induction scanData generalizing sys with
  | nil => rfl
  | cons p rest ih =>
    obtain ⟨t, data⟩ := p
    have hq := loopBody_quiet hlaw sys t data (h t data (List.mem_cons_self _ _))
    cases hf : (loopBody api sys t data).fatal with
    | some e =>
      rw [syncLoop_cons_of_fatal api t data rest sys e hf]
      simpa [Run.writes, Run.calls] using hq
    | none =>
      rw [syncLoop_cons_of_next api t data rest sys hf]
      have hrest := ih (loopBody api sys t data).sys (fun t1 d1 hm => by
        rcases h t1 d1 (List.mem_cons_of_mem _ hm) with h1 | h1
        · exact Or.inl h1
        · exact Or.inr (loopBody_keeps hlaw sys t data _ h1))
      simp only [Run.writes, Run.calls, List.flatMap_cons, List.countP_append] at hrest ⊢
      omega

/-- C2, as the code has it: over any environment that is `Lawful`, and any
dataset in which every measurement with a body fat value and no weight falls on
a date that shows in the weight log at the start or is the date of a
measurement of the dataset that has a weight, if a first run of the loop ends
without a `log.Fatalf` then a second run over the same dataset, visited in any
order, from the state the first one left, makes no `CreateWeightLog` and no
`CreateBodyFatLog` call. -/
theorem C2_second_run_no_writes {σ : Type} (api : FitbitAPI σ) (Logged : σ → String → Prop)
    (hlaw : Lawful api Logged) (scanData second : List (Time × InnerScanData)) (sys : Sys σ)
    (hsame : second.Perm scanData)
    (hcover : ∀ t data, (t, data) ∈ scanData → data.Weight = none → data.Fat ≠ none →
      Logged sys.remote t.FormatDate ∨
        ∃ t1 data1, (t1, data1) ∈ scanData ∧ data1.Weight ≠ none ∧
          t1.FormatDate = t.FormatDate)
    (hfirst : (syncLoop api scanData sys).fatal = none) :
    (syncLoop api second (syncLoop api scanData sys).sys).writes = 0 := by
  apply syncLoop_quiet hlaw
  intro t data hmem2
  have hmem : (t, data) ∈ scanData := hsame.mem_iff.mp hmem2
  by_cases hw : data.Weight = none
  · by_cases hf : data.Fat = none
    · exact Or.inl ⟨hw, hf⟩
    · right
      rcases hcover t data hmem hw hf with h | ⟨t1, data1, hm1, hw1, hd⟩
      · exact syncLoop_keeps hlaw scanData sys _ h
      · rw [← hd]
        exact syncLoop_shows hlaw scanData sys hfirst t1 data1 hm1 hw1
  · exact Or.inr (syncLoop_shows hlaw scanData sys hfirst t data hmem hw)

/-- C2 fails as stated: for a dataset of one measurement with a body fat value
and no weight, against the empty service, the first run ends without error
after one `CreateBodyFatLog` call, and the second run, from the state the first
left, makes that `CreateBodyFatLog` call again. -/
theorem C2_fat_only_written_again :
    (syncLoop service.api [(service.t1, ⟨none, some service.f2025⟩)]
        ⟨service.fresh 10, service.noEnv⟩).fatal = none ∧
      (syncLoop service.api [(service.t1, ⟨none, some service.f2025⟩)]
        ⟨service.fresh 10, service.noEnv⟩).writes = 1 ∧
      (syncLoop service.api [(service.t1, ⟨none, some service.f2025⟩)]
        (syncLoop service.api [(service.t1, ⟨none, some service.f2025⟩)]
          ⟨service.fresh 10, service.noEnv⟩).sys).fatal = none ∧
      (syncLoop service.api [(service.t1, ⟨none, some service.f2025⟩)]
        (syncLoop service.api [(service.t1, ⟨none, some service.f2025⟩)]
          ⟨service.fresh 10, service.noEnv⟩).sys).writes = 1 ∧
      (syncLoop service.api [(service.t1, ⟨none, some service.f2025⟩)]
        (syncLoop service.api [(service.t1, ⟨none, some service.f2025⟩)]
          ⟨service.fresh 10, service.noEnv⟩).sys).calls.countP Call.isFatWrite = 1 :=
  ⟨rfl, rfl, rfl, rfl, rfl⟩

end main

namespace main

open htf

theorem C2_second_run_no_writes_witness :
    (∀ t data, (t, data) ∈
          [(service.t1, (⟨some service.w6550, some service.f2025⟩ : InnerScanData)),
            (service.t2, ⟨none, none⟩), (service.t3, ⟨none, some service.f2025⟩)] →
        data.Weight = none → data.Fat ≠ none →
        service.Logged (service.fresh 10) t.FormatDate ∨
          ∃ t1 data1, (t1, data1) ∈
              [(service.t1, (⟨some service.w6550, some service.f2025⟩ : InnerScanData)),
                (service.t2, ⟨none, none⟩), (service.t3, ⟨none, some service.f2025⟩)] ∧
            data1.Weight ≠ none ∧ t1.FormatDate = t.FormatDate) ∧
      (syncLoop service.api
        [(service.t1, ⟨some service.w6550, some service.f2025⟩),
          (service.t2, ⟨none, none⟩), (service.t3, ⟨none, some service.f2025⟩)]
        ⟨service.fresh 10, service.noEnv⟩).fatal = none ∧
      (syncLoop service.api
        [(service.t3, ⟨none, some service.f2025⟩), (service.t2, ⟨none, none⟩),
          (service.t1, ⟨some service.w6550, some service.f2025⟩)]
        (syncLoop service.api
          [(service.t1, ⟨some service.w6550, some service.f2025⟩),
            (service.t2, ⟨none, none⟩), (service.t3, ⟨none, some service.f2025⟩)]
          ⟨service.fresh 10, service.noEnv⟩).sys).writes = 0 :=
  have hcover : ∀ t data, (t, data) ∈
        [(service.t1, (⟨some service.w6550, some service.f2025⟩ : InnerScanData)),
          (service.t2, ⟨none, none⟩), (service.t3, ⟨none, some service.f2025⟩)] →
      data.Weight = none → data.Fat ≠ none →
      service.Logged (service.fresh 10) t.FormatDate ∨
        ∃ t1 data1, (t1, data1) ∈
            [(service.t1, (⟨some service.w6550, some service.f2025⟩ : InnerScanData)),
              (service.t2, ⟨none, none⟩), (service.t3, ⟨none, some service.f2025⟩)] ∧
          data1.Weight ≠ none ∧ t1.FormatDate = t.FormatDate := by
    intro t data hm hw hf
    simp only [List.mem_cons, Prod.mk.injEq, List.mem_singleton, List.not_mem_nil,
      or_false] at hm
    rcases hm with ⟨_, h⟩ | ⟨_, h⟩ | ⟨ht, _⟩
    · rw [h] at hw
      cases hw
    · rw [h] at hf
      exact absurd rfl hf
    · right
      refine ⟨service.t1, ⟨some service.w6550, some service.f2025⟩, List.mem_cons_self _ _,
        by decide, ?_⟩
      rw [ht]
      decide
  ⟨hcover, rfl,
    C2_second_run_no_writes service.api service.Logged service.lawful _
      [(service.t3, ⟨none, some service.f2025⟩), (service.t2, ⟨none, none⟩),
        (service.t1, ⟨some service.w6550, some service.f2025⟩)]
      ⟨service.fresh 10, service.noEnv⟩ (by decide) hcover rfl⟩

end main
